import Mathlib

/-!
Shallow embedding of the alchemy-webhook transfer-extraction and
deduplication pipeline (Go sources: cache/memory.go, eth/backfill.go
processor part, solana/processor.go, solana/types.go), together with
proofs settling the frozen claims about it.

Modelling conventions:
* Go `time.Time` and `time.Duration` are modelled as `Int` nanoseconds;
  `time.Now()` is an explicit `now : Int` argument threaded to each
  operation.  `now.After(t)` is `now > t`.
* The Go `map[string]time.Time` of the in-process cache is modelled as an
  association list with unique keys; where Go iterates the map in an
  unspecified order, the model iterates in list order (the claims proved
  here do not depend on the order chosen).
* `int64` subtraction in the Solana balance-delta scan is modelled with
  explicit two-complement wrap-around (`i64sub`).
* The float64 -> big.Float -> big.Int amount pipeline of the Ethereum
  processor is modelled with exact rational arithmetic followed by
  truncation toward zero, which agrees with the Go code on every value
  used in a theorem below.
-/

deriving instance DecidableEq for Except

namespace AlchemyWebhook

/-! ## Generic string helpers mirroring the Go standard library -/

/-- Model of `strings.ToLower`; Go lowers full Unicode, the model lowers
ASCII, which agrees on every string a claim touches. -/
def toLowerStr (s : String) : String :=
  ⟨s.data.map Char.toLower⟩

/-- Model of `strings.TrimPrefix`: drop `pre` when it is a prefix. -/
def trimPrefix (s pre : String) : String :=
  if pre.data.isPrefixOf s.data then ⟨s.data.drop pre.data.length⟩ else s

/-- Model of `strings.HasPrefix`. -/
def hasPrefix (s pre : String) : Bool :=
  pre.data.isPrefixOf s.data

/-- Hex digit test used by the validators after lower-casing
(Go checks `0-9` and `a-f` only). -/
def isLowerHexChar (c : Char) : Bool :=
  (('0' ≤ c && c ≤ '9') || ('a' ≤ c && c ≤ 'f'))

/-- Hex digit test accepting both cases (as `strconv.ParseUint` base 16). -/
def hexDigitVal? (c : Char) : Option Nat :=
  if '0' ≤ c ∧ c ≤ '9' then some (c.toNat - '0'.toNat)
  else if 'a' ≤ c ∧ c ≤ 'f' then some (c.toNat - 'a'.toNat + 10)
  else if 'A' ≤ c ∧ c ≤ 'F' then some (c.toNat - 'A'.toNat + 10)
  else none

/-- Value of a list of hex digits, most significant first; `none` if any
character is not a hex digit. -/
def hexVal? : List Char → Option Nat
  | [] => some 0
  | c :: cs =>
    match hexDigitVal? c, hexVal? cs with
    | some d, some v => some (d * 16 ^ cs.length + v)
    | _, _ => none

/-- Model of `strconv.ParseUint(s, 16, 64)`: no sign, no `0x` prefix,
nonempty hex digits, result below `2 ^ 64`. -/
def parseUintHex64 (s : String) : Option Nat :=
  if s = "" then none
  else
    match hexVal? s.toList with
    | none => none
    | some v => if v < 2 ^ 64 then some v else none

namespace cache

/-! ## In-process cache (cache/memory.go)

The mutable state of a `MemoryCache` value: the TTL map `entries`
(association list of key and expiry instant), the capacity bound
`maxSize`, the `enableLRU` flag and the LRU `accessOrder` list.
The background sweeper goroutine is outside the sequential model; the
claims below quantify over sequences of `IsProcessed` and
`MarkProcessed` calls only. -/
structure MemoryCache where
  entries : List (String × Int)
  maxSize : Nat
  enableLRU : Bool
  accessOrder : List String
deriving Repr, DecidableEq

/-- Go map read `entries[k]`: first binding of `k`. -/
def lookupEntry (k : String) : List (String × Int) → Option Int
  | [] => none
  | (k', v) :: rest => if k' = k then some v else lookupEntry k rest

/-- Go map `delete(entries, k)`: remove the binding of `k`. -/
def eraseEntry (k : String) : List (String × Int) → List (String × Int)
  | [] => []
  | (k', v) :: rest => if k' = k then rest else (k', v) :: eraseEntry k rest

/-- Go map write `entries[k] = v`: replace the binding of `k` or add it. -/
def putEntry (k : String) (v : Int) : List (String × Int) → List (String × Int)
  | [] => [(k, v)]
  | (k', v') :: rest => if k' = k then (k', v) :: rest else (k', v') :: putEntry k v rest

/-- Source `removeFromAccessOrder` removes the first occurrence of the key;
`updateAccessOrder` then appends the key at the most-recently-used end. -/
def updateAccessOrder (k : String) (l : List String) : List String :=
  l.erase k ++ [k]

/-- Source `MemoryCache.IsProcessed` (cache/memory.go:37).  Returns the
boolean answer and the successor state; the Go method always returns a
`nil` error.  On an expired hit the entry is deleted (and removed from
the access order when LRU is enabled); on a live hit the access order is
refreshed when LRU is enabled. -/
def MemoryCache.IsProcessed (now : Int) (c : MemoryCache) (txHash : String) :
    Bool × MemoryCache :=
  match lookupEntry txHash c.entries with
  | none => (false, c)
  | some expiresAt =>
    if now > expiresAt then
      (false, { c with
        entries := eraseEntry txHash c.entries,
        accessOrder := if c.enableLRU then c.accessOrder.erase txHash else c.accessOrder })
    else
      (true, if c.enableLRU then
        { c with accessOrder := updateAccessOrder txHash c.accessOrder } else c)

/-- Eviction phase of `MarkProcessed` (cache/memory.go:74-98): when the map
is at or above capacity, LRU mode drops the head of the access order
(when any), and non-LRU mode drops the first expired entry, or failing
that an arbitrary entry (modelled: the first one). -/
def MemoryCache.evict (now : Int) (c : MemoryCache) : MemoryCache :=
  if c.entries.length ≥ c.maxSize then
    if c.enableLRU then
      match c.accessOrder with
      | [] => c
      | oldest :: rest =>
        { c with entries := eraseEntry oldest c.entries, accessOrder := rest }
    else
      match c.entries.find? (fun p => now > p.2) with
      | some p => { c with entries := eraseEntry p.1 c.entries }
      | none =>
        match c.entries with
        | [] => c
        | p :: _ => { c with entries := eraseEntry p.1 c.entries }
  else c

/-- Source `MemoryCache.MarkProcessed` (cache/memory.go:70): evict if at
capacity, then insert the key with expiry `now + ttl` and refresh the
access order when LRU is enabled.  The Go method always returns `nil`. -/
def MemoryCache.MarkProcessed (now : Int) (c : MemoryCache) (txHash : String)
    (ttl : Int) : MemoryCache :=
  let c1 := MemoryCache.evict now c
  { c1 with
    entries := putEntry txHash (now + ttl) c1.entries,
    accessOrder :=
      if c1.enableLRU then updateAccessOrder txHash c1.accessOrder
      else c1.accessOrder }

/-- Source `NewMemoryCache`: empty map and empty access order. -/
def MemoryCache.init (maxSize : Nat) (enableLRU : Bool) : MemoryCache :=
  { entries := [], maxSize := maxSize, enableLRU := enableLRU, accessOrder := [] }

end cache

namespace eth

/-! ## Ethereum transfer normalizer (eth/backfill.go, processor part)

Data model of a raw Alchemy activity record and the normalized output. -/

/-- The `decimals` JSON field is `interface` in Go: a number
(float64/int/int64 cases of the type switch) or a string. -/
inductive DecimalsField where
  | num (n : Int)
  | str (s : String)
deriving Repr, DecidableEq

structure AlchemyRawContract where
  rawValue : String
  address : String
  decimals : Option DecimalsField
deriving Repr, DecidableEq

/-- Raw activity record.  The float64 `value` field is modelled as an
exact rational. -/
structure AlchemyActivity where
  blockNum : String
  hash : String
  fromAddress : String
  toAddress : String
  value : Option Rat
  erc721TokenId : Option String
  asset : String
  category : String
  rawContract : Option AlchemyRawContract
  typeTraceAddress : Option String
deriving Repr, DecidableEq

/-- Normalized output handed to the downstream handler. -/
structure ProcessedActivity where
  txHash : String
  fromAddress : String
  toAddress : String
  value : String
  currency : String
  category : String
  blockNumber : Nat
  network : String
  isInternal : Bool
deriving Repr, DecidableEq

/-- Source `validateEthereumAddress`: the error message when invalid. -/
def validateEthereumAddress (addr : String) : Option String :=
  if addr = "" then some "address is empty"
  else
    let a := trimPrefix (toLowerStr addr) "0x"
    if a.length ≠ 40 then some "invalid address length"
    else if a.data.all isLowerHexChar then none
    else some "invalid hex character in address"

/-- Source `validateTransactionHash`. -/
def validateTransactionHash (hash : String) : Option String :=
  if hash = "" then some "transaction hash is empty"
  else
    let h := trimPrefix (toLowerStr hash) "0x"
    if h.length ≠ 64 then some "invalid hash length"
    else if h.data.all isLowerHexChar then none
    else some "invalid hex character in hash"

/-- Source `validateBlockNumber`. -/
def validateBlockNumber (blockNumStr : String) : Option String :=
  if blockNumStr = "" then some "block number is empty"
  else
    let b := trimPrefix (toLowerStr blockNumStr) "0x"
    if b.length = 0 then some "block number is empty after removing prefix"
    else if b.data.all isLowerHexChar then none
    else some "invalid hex character in block number"

/-- Hash normalization of `ProcessActivity` (eth/backfill.go:360-363):
trim an exact `0x`, lower-case, then ensure a `0x` prefix. -/
def normalizeTxHash (h : String) : String :=
  let t := toLowerStr (trimPrefix h "0x")
  if hasPrefix t "0x" then t else "0x" ++ t

/-- Dedup key derivation (eth/backfill.go:369-372): the normalized hash,
suffixed with the trace address when one is present and nonempty. -/
def dedupKey (txHash : String) (trace : Option String) : String :=
  match trace with
  | some t => if t ≠ "" then txHash ++ "_" ++ t else txHash
  | none => txHash

/-- Decode hex-digit pairs into bytes, keeping the prefix decoded before
the first invalid pair (as `hex.DecodeString` with its error ignored). -/
def hexBytePairs : List Char → List Nat
  | a :: b :: rest =>
    match hexDigitVal? a, hexDigitVal? b with
    | some x, some y => (16 * x + y) :: hexBytePairs rest
    | _, _ => []
  | _ => []

/-- Model of `common.HexToAddress`: optional `0x`/`0X` prefix, odd-length
input padded with a leading zero digit, decode, then keep the last 20
bytes left-padded with zeros. -/
def hexToAddress (s : String) : List Nat :=
  let t := if "0x".data.isPrefixOf s.data ∨ "0X".data.isPrefixOf s.data
    then s.data.drop 2 else s.data
  let t2 := if t.length % 2 = 1 then '0' :: t else t
  let bs := hexBytePairs t2
  if bs.length ≥ 20 then bs.drop (bs.length - 20)
  else List.replicate (20 - bs.length) 0 ++ bs

/-- Processor configuration: the symbol table (symbol, contract address)
and the chain identifier.  Go converts the addresses with
`common.HexToAddress` at construction; the model converts at lookup.
Go iterates the symbol map in unspecified order; the model takes the
first match in list order. -/
structure Processor where
  tokenAddresses : List (String × String)
  chainID : String
deriving Repr, DecidableEq

/-- Source `getTokenSymbol`: first symbol whose address equals the given
one, else the empty string. -/
def getTokenSymbol (p : Processor) (tokenAddr : List Nat) : String :=
  match p.tokenAddresses.find? (fun q => hexToAddress q.2 = tokenAddr) with
  | some q => q.1
  | none => ""

/-- Decimal-digit value of a character list; `none` on any non-digit. -/
def decVal? : List Char → Option Nat
  | [] => some 0
  | c :: cs =>
    if '0' ≤ c ∧ c ≤ '9' then
      match decVal? cs with
      | some v => some ((c.toNat - '0'.toNat) * 10 ^ cs.length + v)
      | none => none
    else none

/-- Model of `strconv.ParseInt(s, 16, 64)`: optional sign, nonempty hex
digits, 64-bit signed range. -/
def parseIntHex64 (s : String) : Option Int :=
  let core : List Char → Int → Option Int := fun cs sign =>
    if cs = [] then none
    else match hexVal? cs with
      | some v =>
        if sign = 1 then (if (v : Int) ≤ 2 ^ 63 - 1 then some (v : Int) else none)
        else (if (v : Int) ≤ 2 ^ 63 then some (-(v : Int)) else none)
      | none => none
  match s.data with
  | '-' :: rest => core rest (-1)
  | '+' :: rest => core rest 1
  | cs => core cs 1

/-- Model of `strconv.Atoi`: optional sign, nonempty decimal digits,
64-bit signed range. -/
def parseIntDec64 (s : String) : Option Int :=
  let core : List Char → Int → Option Int := fun cs sign =>
    if cs = [] then none
    else match decVal? cs with
      | some v =>
        if sign = 1 then (if (v : Int) ≤ 2 ^ 63 - 1 then some (v : Int) else none)
        else (if (v : Int) ≤ 2 ^ 63 then some (-(v : Int)) else none)
      | none => none
  match s.data with
  | '-' :: rest => core rest (-1)
  | '+' :: rest => core rest 1
  | cs => core cs 1

/-- Model of `big.Int.SetString(s, 16)`: optional sign, nonempty hex
digits, arbitrary precision. -/
def parseBigIntHex? (s : String) : Option Int :=
  let core : List Char → Option Nat := fun cs =>
    if cs = [] then none else hexVal? cs
  match s.data with
  | '-' :: rest => (core rest).map (fun v => -(v : Int))
  | '+' :: rest => (core rest).map (fun v => (v : Int))
  | cs => (core cs).map (fun v => (v : Int))

/-- The `getDecimals` closure of `ProcessActivity`: 18 when absent, the
number as is, or a string parsed as hex then decimal, defaulting to 18. -/
def getDecimals (act : AlchemyActivity) : Int :=
  match act.rawContract with
  | none => 18
  | some rc =>
    match rc.decimals with
    | none => 18
    | some (.num n) => n
    | some (.str s) =>
      let t := trimPrefix s "0x"
      match parseIntHex64 t with
      | some d => d
      | none =>
        match parseIntDec64 t with
        | some d => d
        | none => 18

/-- Model of `big.Int.Exp(10, d, nil)`: one when the exponent is not
positive (big.Int returns 1 for a non-positive exponent). -/
def goPow10 (d : Int) : Int :=
  if d ≤ 0 then 1 else 10 ^ d.toNat

/-- Truncation toward zero of `q * m` (the exact value of the
big.Float multiply-then-Int pipeline on values without float rounding). -/
def ratTruncMul (q : Rat) (m : Int) : Int :=
  Int.tdiv (q.num * m) (q.den : Int)

/-- Amount in wei of a native value: `value * 1e18` truncated. -/
def weiOf (v : Rat) : Int :=
  ratTruncMul v (10 ^ 18)

/-- Network tag of the `external`/`internal` branch. -/
def nativeNetwork (chainID : String) (category : String) : String :=
  if chainID = "eth-testnet" then
    (if category = "internal" then "INTERNAL-TESTNET" else "TESTNET")
  else (if category = "internal" then "INTERNAL" else "MAINNET")

/-- Network tag of the token/erc721/erc1155 branches. -/
def taggedNetwork (chainID : String) (base : String) (isInternalTx : Bool) : String :=
  if isInternalTx then
    (if chainID = "eth-testnet" then base ++ "-INTERNAL-TESTNET" else base ++ "-INTERNAL")
  else
    (if chainID = "eth-testnet" then base ++ "-TESTNET" else base)

/-- Currency resolution: configured symbol, else payload asset, else
`UNKNOWN`. -/
def resolveCurrency (p : Processor) (address : String) (asset : String) : String :=
  let c := getTokenSymbol p (hexToAddress address)
  if c = "" then (if asset = "" then "UNKNOWN" else asset) else c

/-- The category classification of `ProcessActivity` (step 3): amount,
currency and network, or `none` when the branch returns early without an
event (missing value, missing raw contract, missing token id, or an
unsupported category). -/
def hasContractAddress (act : AlchemyActivity) : Bool :=
  match act.rawContract with
  | some rc => rc.address != ""
  | none => false

def computeACN (p : Processor) (act : AlchemyActivity) (category : String)
    (isInternalTx : Bool) : Option (Int × String × String) :=
  if category = "external" ∨ category = "internal" then
    match act.value with
    | none => none
    | some v => some (weiOf v, "ETH", nativeNetwork p.chainID category)
  else if category = "token" ∨ category = "erc20" ∨ hasContractAddress act = true then
    match act.rawContract with
    | none => none
    | some rc =>
      let amountOpt : Option Int :=
        if rc.rawValue = "" then
          match act.value with
          | some v => some (ratTruncMul v (goPow10 (getDecimals act)))
          | none => none
        else some ((parseBigIntHex? (trimPrefix rc.rawValue "0x")).getD 0)
      match amountOpt with
      | none => none
      | some amount =>
        some (amount, resolveCurrency p rc.address act.asset,
          taggedNetwork p.chainID "ERC-20" isInternalTx)
  else if category = "erc721" then
    match act.erc721TokenId, act.rawContract with
    | some _, some rc =>
      some (1, resolveCurrency p rc.address act.asset,
        taggedNetwork p.chainID "ERC-721" isInternalTx)
    | _, _ => none
  else if category = "erc1155" then
    match act.rawContract with
    | some rc =>
      some (1, resolveCurrency p rc.address act.asset,
        taggedNetwork p.chainID "ERC-1155" isInternalTx)
    | none => none
  else none

end eth

/-! ## Cache abstraction seen by the normalizers (cache/interface.go)

A backend is a state type with the two operations; each may fail.  The
in-process backend never fails; a failing backend instantiates the
fail-open claims. -/
structure CacheOps (σ : Type) where
  isProcessed : σ → String → (Except String Bool) × σ
  markProcessed : σ → String → Int → (Except String Unit) × σ

/-- The in-process backend as a cache for the normalizers, at a fixed
instant: both operations succeed. -/
def cache.MemoryCache.ops (now : Int) : CacheOps cache.MemoryCache where
  isProcessed := fun s k =>
    let r := cache.MemoryCache.IsProcessed now s k
    (Except.ok r.1, r.2)
  markProcessed := fun s k ttl =>
    (Except.ok (), cache.MemoryCache.MarkProcessed now s k ttl)

/-- The fixed TTL `24 * time.Hour` in nanoseconds. -/
def ttl24h : Int := 86400000000000

/-- A backend whose two operations always fail (a cache outage), used to
instantiate the fail-open claims. -/
def failingCacheOps : CacheOps Unit where
  isProcessed := fun s _ => (Except.error "cache down", s)
  markProcessed := fun s _ _ => (Except.error "cache down", s)

namespace eth

inductive EthError where
  | invalidToAddress (msg : String)
  | invalidFromAddress (msg : String)
  | invalidTransactionHash (msg : String)
  | invalidBlockNumber (msg : String)
  | parseBlockNumber
  | handlerError (msg : String)
deriving Repr, DecidableEq

/-- Observable outcome of one `ProcessActivity` call: the returned error
or success, the final cache state, the handler invocations made, and the
`MarkProcessed` calls issued (key and TTL). -/
structure EthRun (σ : Type) where
  result : Except EthError Unit
  cacheState : σ
  handlerCalls : List ProcessedActivity
  markCalls : List (String × Int)

/-- Lower-cased category of an activity (eth/backfill.go:403). -/
def categoryOf (act : AlchemyActivity) : String :=
  toLowerStr act.category

/-- The `isInternalTx` flag (eth/backfill.go:404): internal category or a
nonempty trace address. -/
def isInternalOf (act : AlchemyActivity) : Bool :=
  (categoryOf act == "internal") ||
    (match act.typeTraceAddress with | some t => t != "" | none => false)

/-- The normalized record built at eth/backfill.go:552-562. -/
def paOf (act : AlchemyActivity) (txHash : String) (blockNum : Nat)
    (amount : Int) (currency network : String) : ProcessedActivity :=
  { txHash := txHash, fromAddress := act.fromAddress,
    toAddress := act.toAddress, value := toString amount,
    currency := currency, category := categoryOf act,
    blockNumber := blockNum, network := network,
    isInternal := isInternalOf act }

/-- Continuation of `ProcessActivity` after the cache consult
(eth/backfill.go:389-577): block-number validation and parse,
classification, zero suppression, handler invocation and cache mark. -/
def ProcessActivityCore {σ : Type} (p : Processor) (co : Option (CacheOps σ))
    (handler : Option (ProcessedActivity → Except String Unit)) (s : σ)
    (act : AlchemyActivity) (txHash uniqueID : String) : EthRun σ :=
  match validateBlockNumber act.blockNum with
  | some e => ⟨Except.error (EthError.invalidBlockNumber e), s, [], []⟩
  | none =>
    match parseUintHex64 (trimPrefix act.blockNum "0x") with
    | none => ⟨Except.error EthError.parseBlockNumber, s, [], []⟩
    | some blockNum =>
      match computeACN p act (categoryOf act) (isInternalOf act) with
      | none => ⟨Except.ok (), s, [], []⟩
      | some (amount, currency, network) =>
        if amount = 0 then ⟨Except.ok (), s, [], []⟩
        else
          let pa : ProcessedActivity := paOf act txHash blockNum amount currency network
          match handler with
          | some h =>
            match h pa with
            | Except.error e => ⟨Except.error (EthError.handlerError e), s, [pa], []⟩
            | Except.ok _ =>
              match co with
              | some ops =>
                ⟨Except.ok (), (ops.markProcessed s uniqueID ttl24h).2, [pa],
                  [(uniqueID, ttl24h)]⟩
              | none => ⟨Except.ok (), s, [pa], []⟩
          | none =>
            match co with
            | some ops =>
              ⟨Except.ok (), (ops.markProcessed s uniqueID ttl24h).2, [],
                [(uniqueID, ttl24h)]⟩
            | none => ⟨Except.ok (), s, [], []⟩

/-- Source `Processor.ProcessActivity` (eth/backfill.go:352-578):
validation of addresses and hash, dedup-key derivation, cache consult
(fail-open on error, skip on confirmed hit), then the core. -/
def ProcessActivity {σ : Type} (p : Processor) (co : Option (CacheOps σ))
    (handler : Option (ProcessedActivity → Except String Unit)) (s : σ)
    (act : AlchemyActivity) : EthRun σ :=
  match validateEthereumAddress act.toAddress with
  | some e => ⟨Except.error (EthError.invalidToAddress e), s, [], []⟩
  | none =>
    match validateEthereumAddress act.fromAddress with
    | some e => ⟨Except.error (EthError.invalidFromAddress e), s, [], []⟩
    | none =>
      let txHash := normalizeTxHash act.hash
      match validateTransactionHash txHash with
      | some e => ⟨Except.error (EthError.invalidTransactionHash e), s, [], []⟩
      | none =>
        let uniqueID := dedupKey txHash act.typeTraceAddress
        match co with
        | none => ProcessActivityCore p co handler s act txHash uniqueID
        | some ops =>
          let q := ops.isProcessed s uniqueID
          match q.1 with
          | Except.error _ => ProcessActivityCore p co handler q.2 act txHash uniqueID
          | Except.ok true => ⟨Except.ok (), q.2, [], []⟩
          | Except.ok false => ProcessActivityCore p co handler q.2 act txHash uniqueID

end eth

namespace solana

/-! ## Solana transfer normalizer (solana/processor.go, solana/types.go) -/

structure SolInstruction where
  data : String
  programIdIndex : Int
  accounts : List Int
deriving Repr, DecidableEq

structure SolInnerInstruction where
  index : Int
  instructions : List SolInstruction
deriving Repr, DecidableEq

structure SolMeta where
  fee : Int
  preBalances : List Int
  postBalances : List Int
  innerInstructions : List SolInnerInstruction
  innerInstructionsNone : Bool
  logMessages : List String
deriving Repr, DecidableEq

structure SolMessage where
  instructions : List SolInstruction
  accountKeys : List String
deriving Repr, DecidableEq

structure SolTxDetail where
  signatures : List String
  message : List SolMessage
deriving Repr, DecidableEq

structure AlchemySolanaTransaction where
  signature : String
  transaction : List SolTxDetail
  meta : List SolMeta
deriving Repr, DecidableEq

/-- Native SOL transfer (lamports). -/
structure NativeTransfer where
  fromUserAccount : String
  toUserAccount : String
  amount : Int
deriving Repr, DecidableEq

/-- SPL token transfer; the float64 token amount is modelled as an exact
rational. -/
structure TokenTransfer where
  fromUserAccount : String
  toUserAccount : String
  fromTokenAccount : String
  toTokenAccount : String
  tokenAmount : Rat
  mint : String
  currency : String
deriving Repr, DecidableEq

structure ProcessedTransaction where
  signature : String
  slot : Nat
  nativeTransfers : List NativeTransfer
  tokenTransfers : List TokenTransfer
  fee : Int
  timestamp : Int
deriving Repr, DecidableEq

/-- Wrap an integer into the `int64` range (two-complement). -/
def i64wrap (x : Int) : Int :=
  (x + 2 ^ 63) % 2 ^ 64 - 2 ^ 63

/-- Go `int64` subtraction (wrapping). -/
def i64sub (a b : Int) : Int :=
  i64wrap (a - b)

/-- Inner loop of `extractNativeTransfers` (solana/processor.go:125-143):
scan the indices in order for the first `j` distinct from `i` whose
pre-balance strictly exceeds its post-balance with a positive wrapped
delta. -/
def innerScanFrom (pre post : List Int) (i : Nat) : List Nat → Option Nat
  | [] => none
  | j :: js =>
    if i ≠ j ∧ pre.getD j 0 > post.getD j 0 ∧ 0 < i64sub (pre.getD j 0) (post.getD j 0)
    then some j else innerScanFrom pre post i js

/-- Outer loop of `extractNativeTransfers`: for each credited index `i`
emit one transfer from the first debited `j`, with the credited amount. -/
def outerScan (keys : List String) (pre post : List Int) : List Nat → List NativeTransfer
  | [] => []
  | i :: is =>
    (let credited := i64sub (post.getD i 0) (pre.getD i 0)
     if 0 < credited then
      match innerScanFrom pre post i (List.range keys.length) with
      | some j => [⟨keys.getD j "", keys.getD i "", credited⟩]
      | none => []
     else []) ++ outerScan keys pre post is

/-- Source `extractNativeTransfers` (solana/processor.go:118-156): the
balance-delta pairing heuristic, skipped entirely when the three array
lengths mismatch. -/
def extractNativeTransfers (keys : List String) (meta : SolMeta) : List NativeTransfer :=
  if meta.preBalances.length = meta.postBalances.length ∧
      meta.preBalances.length = keys.length then
    outerScan keys meta.preBalances meta.postBalances (List.range keys.length)
  else []

/-- Declarative form of the pairing heuristic, used to state claim C6:
one transfer per credited index `i`, from the first debited index, for
the credited amount. -/
def nativeTransfersSpec (keys : List String) (pre post : List Int) : List NativeTransfer :=
  (List.range keys.length).filterMap (fun i =>
    let credited := i64sub (post.getD i 0) (pre.getD i 0)
    if 0 < credited then
      ((List.range keys.length).find? (fun j =>
        decide (i ≠ j ∧ pre.getD j 0 > post.getD j 0 ∧
          0 < i64sub (pre.getD j 0) (post.getD j 0)))).map
        (fun j => ⟨keys.getD j "", keys.getD i "", credited⟩)
    else none)

/-- The SPL Token program id (solana/processor.go:161). -/
def splTokenProgramID : String :=
  "TokenkegQfeZyiNwAJbNbGKPFXCWuBvf9Ss623VQ5DA"

def base58Alphabet : List Char :=
  "123456789ABCDEFGHJKLMNPQRSTUVWXYZabcdefghijkmnopqrstuvwxyz".data

/-- Base58 digit value. -/
def base58DigitVal? (c : Char) : Option Nat :=
  base58Alphabet.indexOf? c

/-- Big-endian base58 value of a character list; `none` on an invalid
character. -/
def base58Val? : List Char → Option Nat
  | [] => some 0
  | c :: cs =>
    match base58DigitVal? c, base58Val? cs with
    | some d, some v => some (d * 58 ^ cs.length + v)
    | _, _ => none

/-- Big-endian byte decomposition of a natural number (empty for zero). -/
def natToBytesBE : Nat → List Nat
  | 0 => []
  | n + 1 => natToBytesBE ((n + 1) / 256) ++ [(n + 1) % 256]
decreasing_by exact Nat.div_lt_self (Nat.succ_pos n) (by omega)

/-- Model of `base58.Decode` (mr-tron/base58): error on the empty string
or an invalid character; leading `1` digits become leading zero bytes. -/
def base58Decode? (s : String) : Option (List Nat) :=
  if s = "" then none
  else
    match base58Val? s.data with
    | none => none
    | some v =>
      some (List.replicate (s.data.takeWhile (fun c => c = '1')).length 0 ++
        natToBytesBE v)

/-- Model of `binary.LittleEndian.Uint64(decodedData[1:9])`. -/
def leUint64At1 (bs : List Nat) : Nat :=
  (List.range 8).foldl (fun acc i => acc + bs.getD (1 + i) 0 * 256 ^ i) 0

/-- Processor configuration: the currency/mint table and chain id.  Go
iterates the mint map in unspecified order; the model takes the first
match in list order. -/
structure Processor where
  tokenMints : List (String × String)
  chainID : String
deriving Repr, DecidableEq

/-- Source `getCurrencyFromMint`. -/
def getCurrencyFromMint (p : Processor) (mint : String) : Option String :=
  match p.tokenMints.find? (fun q => q.2 = mint) with
  | some q => some q.1
  | none => none

/-- Byte-window scan of the Go substring loop: some window of `s` starting
at any offset equals `sub`. -/
def isInfixB (sub s : List Char) : Bool :=
  (List.range (s.length + 1)).any (fun i => sub.isPrefixOf (s.drop i))

/-- Mint resolution heuristic of opcode 3 (solana/processor.go:247-278):
first configured mint found as a substring of a log message, else first
configured mint equal to an account key, else empty. -/
def resolveMint3 (p : Processor) (keys : List String) (logMessages : List String) :
    String :=
  let fromLogs := logMessages.findSome? (fun lm =>
    p.tokenMints.findSome? (fun q =>
      if lm.length > 0 ∧ q.2.length > 0 ∧ lm.length ≥ q.2.length ∧
          isInfixB q.2.data lm.data = true
      then some q.2 else none))
  match fromLogs with
  | some m => m
  | none =>
    match keys.findSome? (fun ak =>
      p.tokenMints.findSome? (fun q => if ak = q.2 then some q.2 else none)) with
    | some m => m
    | none => ""

/-- Common tail of the token-instruction loop (solana/processor.go:283-314):
emit the transfer when a mint was resolved, the indices are in range and
the mint is configured; decimal scaling by currency. -/
def finishToken (p : Processor) (keys : List String) (mint : String)
    (fromIdx toIdx : Int) (amount : Nat) : Option TokenTransfer :=
  if mint ≠ "" ∧ 0 ≤ fromIdx ∧ 0 ≤ toIdx ∧
      fromIdx < (keys.length : Int) ∧ toIdx < (keys.length : Int) then
    match getCurrencyFromMint p mint with
    | none => none
    | some currency =>
      let decimals : Nat := if currency = "USDC" ∨ currency = "USDT" then 6 else 9
      let fromAcct := keys.getD fromIdx.toNat ""
      let toAcct := keys.getD toIdx.toNat ""
      some ⟨fromAcct, toAcct, fromAcct, toAcct,
        (amount : Rat) / ((10 : Rat) ^ decimals), mint, currency⟩
  else none

/-- Decoding of one candidate instruction: opcode 12 (TransferChecked)
with explicit mint, opcode 3 (legacy Transfer) with heuristic mint, any
other opcode skipped. -/
def processTokenInstr (p : Processor) (keys : List String) (meta : SolMeta)
    (ins : SolInstruction) : Option TokenTransfer :=
  if ins.data = "" then none
  else
    match base58Decode? ins.data with
    | none => none
    | some bytes =>
      if bytes.length < 1 then none
      else
        let ty := bytes.getD 0 0
        if ty = 12 then
          if ins.accounts.length < 4 ∨ bytes.length < 9 then none
          else
            let fromIdx := ins.accounts.getD 0 0
            let mintIdx := ins.accounts.getD 1 0
            let toIdx := ins.accounts.getD 2 0
            if fromIdx < 0 ∨ fromIdx ≥ (keys.length : Int) ∨
                mintIdx < 0 ∨ mintIdx ≥ (keys.length : Int) ∨
                toIdx < 0 ∨ toIdx ≥ (keys.length : Int) then none
            else
              finishToken p keys (keys.getD mintIdx.toNat "") fromIdx toIdx
                (leUint64At1 bytes)
        else if ty = 3 then
          if ins.accounts.length < 3 ∨ bytes.length < 9 then none
          else
            let fromIdx := ins.accounts.getD 0 0
            let toIdx := ins.accounts.getD 1 0
            if fromIdx < 0 ∨ fromIdx ≥ (keys.length : Int) ∨
                toIdx < 0 ∨ toIdx ≥ (keys.length : Int) then none
            else
              finishToken p keys (resolveMint3 p keys meta.logMessages) fromIdx toIdx
                (leUint64At1 bytes)
        else none

/-- Gathering of candidate instructions (solana/processor.go:163-196):
top-level instructions under the SPL Token program id, then inner
instructions under the same id unless marked absent. -/
def collectTokenInstructions (keys : List String) (msg : SolMessage)
    (meta : SolMeta) : List (SolInstruction × Bool) :=
  let isSPL : SolInstruction → Bool := fun ins =>
    if ins.programIdIndex < 0 ∨ ins.programIdIndex ≥ (keys.length : Int) then false
    else keys.getD ins.programIdIndex.toNat "" == splTokenProgramID
  (msg.instructions.filterMap (fun i => if isSPL i then some (i, false) else none)) ++
  (if meta.innerInstructionsNone = false ∧ meta.innerInstructions ≠ [] then
    ((meta.innerInstructions.map SolInnerInstruction.instructions).flatten).filterMap
      (fun i => if isSPL i then some (i, true) else none)
  else [])

/-- Source `extractTokenTransfers` (solana/processor.go:159-328). -/
def extractTokenTransfers (p : Processor) (keys : List String) (msg : SolMessage)
    (meta : SolMeta) : List TokenTransfer :=
  (collectTokenInstructions keys msg meta).filterMap
    (fun q => processTokenInstr p keys meta q.1)

inductive SolError where
  | handlerError (msg : String)
deriving Repr, DecidableEq

/-- Observable outcome of one `ProcessTransaction` call. -/
structure SolRun (σ : Type) where
  result : Except SolError Unit
  cacheState : σ
  handlerCalls : List ProcessedTransaction
  markCalls : List (String × Int)

/-- The normalized record built at solana/processor.go:90-97. -/
def ptxOf (p : Processor) (signature : String) (slot : Nat) (now : Int)
    (accountKeys : List String) (msg : SolMessage) (meta : SolMeta) :
    ProcessedTransaction :=
  ⟨signature, slot, extractNativeTransfers accountKeys meta,
    extractTokenTransfers p accountKeys msg meta, meta.fee, now⟩

/-- Continuation of `ProcessTransaction` after the cache consult
(solana/processor.go:87-114): extraction, handler invocation when at
least one transfer was found, then the cache mark. -/
def ProcessTransactionCore {σ : Type} (p : Processor) (co : Option (CacheOps σ))
    (handler : Option (ProcessedTransaction → Except String Unit)) (s : σ)
    (signature : String) (slot : Nat) (now : Int) (accountKeys : List String)
    (msg : SolMessage) (meta : SolMeta) : SolRun σ :=
  let native := extractNativeTransfers accountKeys meta
  let tokens := extractTokenTransfers p accountKeys msg meta
  let ptx : ProcessedTransaction := ptxOf p signature slot now accountKeys msg meta
  if native ≠ [] ∨ tokens ≠ [] then
    match handler with
    | some h =>
      match h ptx with
      | Except.error e => ⟨Except.error (SolError.handlerError e), s, [ptx], []⟩
      | Except.ok _ =>
        match co with
        | some ops =>
          ⟨Except.ok (), (ops.markProcessed s signature ttl24h).2, [ptx],
            [(signature, ttl24h)]⟩
        | none => ⟨Except.ok (), s, [ptx], []⟩
    | none =>
      match co with
      | some ops =>
        ⟨Except.ok (), (ops.markProcessed s signature ttl24h).2, [],
          [(signature, ttl24h)]⟩
      | none => ⟨Except.ok (), s, [], []⟩
  else ⟨Except.ok (), s, [], []⟩

/-- Source `Processor.ProcessTransaction` (solana/processor.go:45-115):
shape checks on the nested arrays, cache consult on the signature
(fail-open on error, skip on confirmed hit), then the core. -/
def ProcessTransaction {σ : Type} (p : Processor) (co : Option (CacheOps σ))
    (handler : Option (ProcessedTransaction → Except String Unit)) (s : σ)
    (tx : AlchemySolanaTransaction) (slot : Nat) (now : Int) : SolRun σ :=
  match tx.transaction, tx.meta with
  | td :: _, meta :: _ =>
    match td.message with
    | [] => ⟨Except.ok (), s, [], []⟩
    | msg :: _ =>
      if msg.accountKeys = [] then ⟨Except.ok (), s, [], []⟩
      else
        match co with
        | none =>
          ProcessTransactionCore p co handler s tx.signature slot now
            msg.accountKeys msg meta
        | some ops =>
          let q := ops.isProcessed s tx.signature
          match q.1 with
          | Except.error _ =>
            ProcessTransactionCore p co handler q.2 tx.signature slot now
              msg.accountKeys msg meta
          | Except.ok true => ⟨Except.ok (), q.2, [], []⟩
          | Except.ok false =>
            ProcessTransactionCore p co handler q.2 tx.signature slot now
              msg.accountKeys msg meta
  | _, _ => ⟨Except.ok (), s, [], []⟩

end solana

/-! ## Definitions continue below; all theorems are collected at the end. -/

-- THEOREMS-START
namespace cache

/-! ### Association-list lemmas -/

theorem lookupEntry_putEntry_self (k : String) (v : Int) :
    ∀ l : List (String × Int), lookupEntry k (putEntry k v l) = some v := by
  intro l
  induction l with
  | nil => simp [putEntry, lookupEntry]
  | cons p rest ih =>
    by_cases h : p.1 = k
    · simp [putEntry, lookupEntry, h]
    · simp [putEntry, lookupEntry, h, ih]

theorem lookupEntry_eq_none_iff (k : String) :
    ∀ l : List (String × Int), lookupEntry k l = none ↔ k ∉ l.map Prod.fst := by
  intro l
  induction l with
  | nil => simp [lookupEntry]
  | cons p rest ih =>
    by_cases h : p.1 = k
    · simp [lookupEntry, h]
    · simp [lookupEntry, h, ih, Ne.symm h]

theorem lookupEntry_isSome_of_mem (k : String) :
    ∀ l : List (String × Int), k ∈ l.map Prod.fst → (lookupEntry k l).isSome := by
  intro l
  induction l with
  | nil => simp
  | cons p rest ih =>
    intro hmem
    by_cases h : p.1 = k
    · simp [lookupEntry, h]
    · simp only [List.map_cons, List.mem_cons] at hmem
      rcases hmem with h1 | h2
      · exact absurd h1.symm h
      · simpa [lookupEntry, h] using ih h2

theorem map_fst_eraseEntry (k : String) :
    ∀ l : List (String × Int), (eraseEntry k l).map Prod.fst = (l.map Prod.fst).erase k := by
  intro l
  induction l with
  | nil => simp [eraseEntry]
  | cons p rest ih =>
    by_cases h : p.1 = k
    · simp [eraseEntry, h, List.erase_cons_head]
    · simp [eraseEntry, h, ih, List.erase_cons_tail, h]

theorem length_eraseEntry_of_mem (k : String) :
    ∀ l : List (String × Int), k ∈ l.map Prod.fst →
      (eraseEntry k l).length + 1 = l.length := by
  intro l
  induction l with
  | nil => simp
  | cons p rest ih =>
    intro hmem
    by_cases h : p.1 = k
    · simp [eraseEntry, h]
    · simp only [List.map_cons, List.mem_cons] at hmem
      rcases hmem with h1 | h2
      · exact absurd h1.symm h
      · have := ih h2
        simp only [eraseEntry, if_neg h, List.length_cons]
        omega

theorem length_eraseEntry_le (k : String) :
    ∀ l : List (String × Int), (eraseEntry k l).length ≤ l.length := by
  intro l
  induction l with
  | nil => simp [eraseEntry]
  | cons p rest ih =>
    by_cases h : p.1 = k
    · simp only [eraseEntry, if_pos h, List.length_cons]; omega
    · simp only [eraseEntry, if_neg h, List.length_cons]; omega

theorem map_fst_putEntry (k : String) (v : Int) :
    ∀ l : List (String × Int),
      (putEntry k v l).map Prod.fst =
        if k ∈ l.map Prod.fst then l.map Prod.fst else l.map Prod.fst ++ [k] := by
  intro l
  induction l with
  | nil => simp [putEntry]
  | cons p rest ih =>
    by_cases h : p.1 = k
    · simp [putEntry, h]
    · by_cases hm : k ∈ rest.map Prod.fst
      · simp [putEntry, h, ih, hm, Ne.symm h]
      · simp [putEntry, h, ih, hm, Ne.symm h]

theorem length_putEntry_le (k : String) (v : Int) (l : List (String × Int)) :
    (putEntry k v l).length ≤ l.length + 1 := by
  have h := congrArg List.length (map_fst_putEntry k v l)
  simp only [List.length_map] at h
  by_cases hm : k ∈ l.map Prod.fst
  · simp [hm] at h; omega
  · simp [hm] at h; omega

theorem nodup_fst_putEntry (k : String) (v : Int) (l : List (String × Int))
    (h : (l.map Prod.fst).Nodup) : ((putEntry k v l).map Prod.fst).Nodup := by
  rw [map_fst_putEntry]
  by_cases hm : k ∈ l.map Prod.fst
  · simpa [hm] using h
  · simp [hm, List.nodup_append, h, List.disjoint_singleton, hm]

theorem nodup_fst_eraseEntry (k : String) (l : List (String × Int))
    (h : (l.map Prod.fst).Nodup) : ((eraseEntry k l).map Prod.fst).Nodup := by
  rw [map_fst_eraseEntry]
  exact h.erase k

/-! ### The capacity and access-order invariant (claim C10) -/

/-- Invariant of the in-process cache: keys are unique, the map never
exceeds `maxSize` entries, capacity is positive, and in LRU mode the
access-order list is a permutation of the key set. -/
def MemInv (c : MemoryCache) : Prop :=
  (c.entries.map Prod.fst).Nodup ∧
  c.entries.length ≤ c.maxSize ∧
  1 ≤ c.maxSize ∧
  (c.enableLRU = true → c.accessOrder.Perm (c.entries.map Prod.fst))

theorem memInv_init (maxSize : Nat) (enableLRU : Bool) (h : 1 ≤ maxSize) :
    MemInv (MemoryCache.init maxSize enableLRU) := by
  refine ⟨by simp [MemoryCache.init], by simp [MemoryCache.init], by simpa [MemoryCache.init], ?_⟩
  intro _
  simp [MemoryCache.init]

/-! Shape lemmas describing each branch of the two cache operations. -/

theorem isProcessed_of_lookup_none (now : Int) (c : MemoryCache) (k : String)
    (hl : lookupEntry k c.entries = none) :
    MemoryCache.IsProcessed now c k = (false, c) := by
  simp [MemoryCache.IsProcessed, hl]

theorem isProcessed_of_expired (now : Int) (c : MemoryCache) (k : String)
    (expiresAt : Int) (hl : lookupEntry k c.entries = some expiresAt)
    (hexp : now > expiresAt) :
    MemoryCache.IsProcessed now c k = (false, { c with
      entries := eraseEntry k c.entries,
      accessOrder := if c.enableLRU then c.accessOrder.erase k else c.accessOrder }) := by
  simp [MemoryCache.IsProcessed, hl, hexp]

theorem isProcessed_of_live (now : Int) (c : MemoryCache) (k : String)
    (expiresAt : Int) (hl : lookupEntry k c.entries = some expiresAt)
    (hexp : ¬ now > expiresAt) :
    MemoryCache.IsProcessed now c k = (true, if c.enableLRU then
      { c with accessOrder := updateAccessOrder k c.accessOrder } else c) := by
  simp [MemoryCache.IsProcessed, hl, hexp]

theorem evict_of_not_full (now : Int) (c : MemoryCache)
    (h : ¬ c.entries.length ≥ c.maxSize) : MemoryCache.evict now c = c := by
  simp [MemoryCache.evict, h]

theorem evict_of_full_lru (now : Int) (c : MemoryCache) (oldest : String)
    (rest : List String) (h1 : c.entries.length ≥ c.maxSize)
    (h2 : c.enableLRU = true) (h3 : c.accessOrder = oldest :: rest) :
    MemoryCache.evict now c =
      { c with entries := eraseEntry oldest c.entries, accessOrder := rest } := by
  simp [MemoryCache.evict, h1, h2, h3]

theorem evict_of_full_nonlru_expired (now : Int) (c : MemoryCache)
    (p : String × Int) (h1 : c.entries.length ≥ c.maxSize)
    (h2 : c.enableLRU = false) (h3 : c.entries.find? (fun q => now > q.2) = some p) :
    MemoryCache.evict now c = { c with entries := eraseEntry p.1 c.entries } := by
  simp [MemoryCache.evict, h1, h2, h3]

theorem evict_of_full_nonlru_fallback (now : Int) (c : MemoryCache)
    (p : String × Int) (rest : List (String × Int))
    (h1 : c.entries.length ≥ c.maxSize) (h2 : c.enableLRU = false)
    (h3 : c.entries.find? (fun q => now > q.2) = none) (h4 : c.entries = p :: rest) :
    MemoryCache.evict now c = { c with entries := eraseEntry p.1 c.entries } := by
  rw [h4] at h1 h3
  simp [MemoryCache.evict, h1, h2, h3, h4]
  intro hcon
  exfalso
  simp only [List.length_cons] at h1
  omega

theorem evict_maxSize (now : Int) (c : MemoryCache) :
    (MemoryCache.evict now c).maxSize = c.maxSize := by
  unfold MemoryCache.evict
  repeat first
  | rfl
  | split

theorem evict_enableLRU (now : Int) (c : MemoryCache) :
    (MemoryCache.evict now c).enableLRU = c.enableLRU := by
  unfold MemoryCache.evict
  repeat first
  | rfl
  | split

theorem evict_accessOrder_of_not_lru (now : Int) (c : MemoryCache)
    (h : c.enableLRU = false) :
    (MemoryCache.evict now c).accessOrder = c.accessOrder := by
  unfold MemoryCache.evict
  repeat first
  | rfl
  | simp only [h, Bool.false_eq_true, if_false]
  | split

theorem markProcessed_entries (now : Int) (c : MemoryCache) (k : String) (ttl : Int) :
    (MemoryCache.MarkProcessed now c k ttl).entries =
      putEntry k (now + ttl) (MemoryCache.evict now c).entries := rfl

theorem markProcessed_maxSize (now : Int) (c : MemoryCache) (k : String) (ttl : Int) :
    (MemoryCache.MarkProcessed now c k ttl).maxSize = c.maxSize := by
  simp [MemoryCache.MarkProcessed, evict_maxSize]

theorem markProcessed_enableLRU (now : Int) (c : MemoryCache) (k : String) (ttl : Int) :
    (MemoryCache.MarkProcessed now c k ttl).enableLRU = c.enableLRU := by
  simp [MemoryCache.MarkProcessed, evict_enableLRU]

theorem memInv_isProcessed (now : Int) (c : MemoryCache) (k : String)
    (h : MemInv c) : MemInv (MemoryCache.IsProcessed now c k).2 := by
  obtain ⟨hnd, hlen, hmax, hperm⟩ := h
  cases hl : lookupEntry k c.entries with
  | none => rw [isProcessed_of_lookup_none now c k hl]; exact ⟨hnd, hlen, hmax, hperm⟩
  | some expiresAt =>
    have hkmem : k ∈ c.entries.map Prod.fst := by
      by_contra hk
      rw [← lookupEntry_eq_none_iff] at hk
      rw [hl] at hk
      exact Option.noConfusion hk
    by_cases hexp : now > expiresAt
    · rw [isProcessed_of_expired now c k expiresAt hl hexp]
      unfold MemInv
      dsimp only
      refine ⟨nodup_fst_eraseEntry k _ hnd, ?_, hmax, ?_⟩
      · exact le_trans (length_eraseEntry_le k c.entries) hlen
      · intro hlru
        simp only [hlru, if_true]
        rw [map_fst_eraseEntry]
        exact (hperm hlru).erase k
    · rw [isProcessed_of_live now c k expiresAt hl hexp]
      by_cases hlru : c.enableLRU
      · simp only [hlru, if_true]
        refine ⟨hnd, hlen, hmax, ?_⟩
        intro _
        simp only [updateAccessOrder]
        have hmem2 : k ∈ c.accessOrder := ((hperm hlru).mem_iff).2 hkmem
        have hp1 : (c.accessOrder.erase k ++ [k]).Perm c.accessOrder :=
          (List.perm_append_singleton k _).trans (List.perm_cons_erase hmem2).symm
        exact hp1.trans (hperm hlru)
      · simp only [Bool.not_eq_true] at hlru
        simp only [hlru, Bool.false_eq_true, if_false]
        exact ⟨hnd, hlen, hmax, hperm⟩

theorem memInv_evict (now : Int) (c : MemoryCache) (h : MemInv c) :
    MemInv (MemoryCache.evict now c) ∧
      (c.entries.length ≥ c.maxSize →
        (MemoryCache.evict now c).entries.length + 1 ≤ c.maxSize) := by
  obtain ⟨hnd, hlen, hmax, hperm⟩ := h
  by_cases hfull : c.entries.length ≥ c.maxSize
  · have hlen0 : c.entries.length = c.maxSize := le_antisymm hlen hfull
    have hne : c.entries ≠ [] := by
      intro hnil
      rw [hnil] at hlen0
      simp only [List.length_nil] at hlen0
      omega
    by_cases hlru : c.enableLRU
    · have hpa : c.accessOrder.Perm (c.entries.map Prod.fst) := hperm hlru
      cases hao : c.accessOrder with
      | nil =>
        exfalso
        have := hpa.length_eq
        rw [hao] at this
        simp only [List.length_nil, List.length_map] at this
        exact hne (List.eq_nil_of_length_eq_zero this.symm)
      | cons oldest rest =>
        rw [evict_of_full_lru now c oldest rest hfull hlru hao]
        have hpa2 : (oldest :: rest).Perm (c.entries.map Prod.fst) := hao ▸ hpa
        have holdmem : oldest ∈ c.entries.map Prod.fst :=
          hpa2.mem_iff.1 (List.mem_cons_self _ _)
        have hlen2 : (eraseEntry oldest c.entries).length + 1 = c.entries.length :=
          length_eraseEntry_of_mem oldest c.entries holdmem
        unfold MemInv
        dsimp only
        refine ⟨⟨nodup_fst_eraseEntry _ _ hnd, by omega, hmax, ?_⟩, by intro _; omega⟩
        intro _
        rw [map_fst_eraseEntry]
        simpa [List.erase_cons_head] using hpa2.erase oldest
    · simp only [Bool.not_eq_true] at hlru
      cases hf : c.entries.find? (fun p => now > p.2) with
      | some p =>
        rw [evict_of_full_nonlru_expired now c p hfull hlru hf]
        have hpmem : p ∈ c.entries := List.mem_of_find?_eq_some hf
        have hpk : p.1 ∈ c.entries.map Prod.fst := List.mem_map_of_mem Prod.fst hpmem
        have hlen2 := length_eraseEntry_of_mem p.1 c.entries hpk
        unfold MemInv
        dsimp only
        refine ⟨⟨nodup_fst_eraseEntry _ _ hnd, by omega, hmax, ?_⟩, by intro _; omega⟩
        intro hc
        rw [hlru] at hc
        exact absurd hc (by simp)
      | none =>
        cases hce : c.entries with
        | nil => exact absurd hce hne
        | cons p rest =>
          rw [evict_of_full_nonlru_fallback now c p rest hfull hlru hf hce]
          have hpk : p.1 ∈ c.entries.map Prod.fst := by
            rw [hce]; exact List.mem_cons_self _ _
          have hlen2 := length_eraseEntry_of_mem p.1 c.entries hpk
          unfold MemInv
          dsimp only
          refine ⟨⟨nodup_fst_eraseEntry _ _ hnd, by omega, hmax, ?_⟩, by intro _; omega⟩
          intro hc
          rw [hlru] at hc
          exact absurd hc (by simp)
  · rw [evict_of_not_full now c hfull]
    exact ⟨⟨hnd, hlen, hmax, hperm⟩, fun hc => absurd hc hfull⟩

theorem memInv_markProcessed (now : Int) (c : MemoryCache) (k : String) (ttl : Int)
    (h : MemInv c) : MemInv (MemoryCache.MarkProcessed now c k ttl) := by
  obtain ⟨hinv1, hcap⟩ := memInv_evict now c h
  obtain ⟨hnd1, hlen1, hmax1, hperm1⟩ := hinv1
  have hmaxeq := evict_maxSize now c
  have hlrueq := evict_enableLRU now c
  have hcap1 : (putEntry k (now + ttl) (MemoryCache.evict now c).entries).length ≤
      c.maxSize := by
    have hple := length_putEntry_le k (now + ttl) (MemoryCache.evict now c).entries
    by_cases hfull : c.entries.length ≥ c.maxSize
    · have := hcap hfull
      omega
    · have hc1e := evict_of_not_full now c hfull
      rw [hc1e] at hple ⊢
      have hle : c.entries.length + 1 ≤ c.maxSize + 1 := by
        have := h.2.1
        omega
      omega
  constructor
  · rw [markProcessed_entries]
    exact nodup_fst_putEntry _ _ _ hnd1
  refine ⟨?_, ?_, ?_⟩
  · rw [markProcessed_entries, markProcessed_maxSize]
    exact hcap1
  · rw [markProcessed_maxSize]; exact h.2.2.1
  · intro hlru
    rw [markProcessed_enableLRU] at hlru
    have hlru1 : (MemoryCache.evict now c).enableLRU = true := by rw [hlrueq]; exact hlru
    have hperm1' := hperm1 hlru1
    show (MemoryCache.MarkProcessed now c k ttl).accessOrder.Perm _
    rw [markProcessed_entries]
    have hao : (MemoryCache.MarkProcessed now c k ttl).accessOrder =
        updateAccessOrder k (MemoryCache.evict now c).accessOrder := by
      simp [MemoryCache.MarkProcessed, hlru1]
    rw [hao, map_fst_putEntry]
    simp only [updateAccessOrder]
    by_cases hm : k ∈ (MemoryCache.evict now c).entries.map Prod.fst
    · simp only [hm, if_true]
      have hmem2 : k ∈ (MemoryCache.evict now c).accessOrder := hperm1'.mem_iff.2 hm
      have hp1 : ((MemoryCache.evict now c).accessOrder.erase k ++ [k]).Perm
          (MemoryCache.evict now c).accessOrder :=
        (List.perm_append_singleton k _).trans (List.perm_cons_erase hmem2).symm
      exact hp1.trans hperm1'
    · simp only [hm, if_false]
      have hnmem : k ∉ (MemoryCache.evict now c).accessOrder :=
        fun hc => hm (hperm1'.mem_iff.1 hc)
      rw [List.erase_of_not_mem hnmem]
      exact hperm1'.append_right [k]

/-- One cache operation: an `IsProcessed` query or a `MarkProcessed` write,
each at an explicit instant. -/
inductive MemOp where
  | isProc (now : Int) (key : String)
  | mark (now : Int) (key : String) (ttl : Int)
deriving Repr, DecidableEq

def applyMemOp (c : MemoryCache) : MemOp → MemoryCache
  | .isProc now key => (MemoryCache.IsProcessed now c key).2
  | .mark now key ttl => MemoryCache.MarkProcessed now c key ttl

def runMemOps (c : MemoryCache) (ops : List MemOp) : MemoryCache :=
  ops.foldl applyMemOp c

theorem memInv_applyMemOp (c : MemoryCache) (op : MemOp) (h : MemInv c) :
    MemInv (applyMemOp c op) := by
  cases op with
  | isProc now key => exact memInv_isProcessed now c key h
  | mark now key ttl => exact memInv_markProcessed now c key ttl h

theorem memInv_runMemOps (ops : List MemOp) :
    ∀ c : MemoryCache, MemInv c → MemInv (runMemOps c ops) := by
  induction ops with
  | nil => intro c h; simpa [runMemOps]
  | cons op rest ih =>
    intro c h
    simpa [runMemOps] using ih (applyMemOp c op) (memInv_applyMemOp c op h)

theorem isProcessed_maxSize (now : Int) (c : MemoryCache) (k : String) :
    (MemoryCache.IsProcessed now c k).2.maxSize = c.maxSize := by
  unfold MemoryCache.IsProcessed
  repeat first
  | rfl
  | split

theorem runMemOps_maxSize (ops : List MemOp) :
    ∀ c : MemoryCache, (runMemOps c ops).maxSize = c.maxSize := by
  induction ops with
  | nil => intro c; rfl
  | cons op rest ih =>
    intro c
    have h1 : (applyMemOp c op).maxSize = c.maxSize := by
      cases op with
      | isProc now key => exact isProcessed_maxSize now c key
      | mark now key ttl => exact markProcessed_maxSize now c key ttl
    simpa [runMemOps, h1] using ih (applyMemOp c op)

end cache

/-- Claim C3: on the in-process backend, for every state, key and
positive TTL, `MarkProcessed(key, ttl)` immediately followed by
`IsProcessed(key)` answers true (both operations are error-free on this
backend), even when the mark triggered a capacity eviction. -/
theorem claim_C3_roundtrip (now : Int) (c : cache.MemoryCache) (k : String)
    (ttl : Int) (h : 0 < ttl) :
    (cache.MemoryCache.IsProcessed now
      (cache.MemoryCache.MarkProcessed now c k ttl) k).1 = true := by
  have hl : cache.lookupEntry k (cache.MemoryCache.MarkProcessed now c k ttl).entries =
      some (now + ttl) := by
    rw [cache.markProcessed_entries]
    exact cache.lookupEntry_putEntry_self k (now + ttl) _
  have hexp : ¬ now > now + ttl := by omega
  rw [cache.isProcessed_of_live now _ k (now + ttl) hl hexp]

/-- Witness for C3 at a concrete full cache: marking key `b` evicts the
only entry `a`, and the immediate lookup of `b` still answers true. -/
theorem claim_C3_witness :
    0 < (5 : Int) ∧
      (cache.MemoryCache.IsProcessed 0
        (cache.MemoryCache.MarkProcessed 0
          ⟨[("a", 100)], 1, false, []⟩ "b" 5) "b").1 = true :=
  ⟨by decide, claim_C3_roundtrip 0 ⟨[("a", 100)], 1, false, []⟩ "b" 5 (by decide)⟩

/-- Claim C10: for every capacity of at least one, after any sequence of
`IsProcessed` and `MarkProcessed` calls starting from a fresh cache the
entries map holds at most `maxSize` entries, and the full invariant
(unique keys, capacity bound, and in LRU mode the access order being a
permutation of the key set) is maintained. -/
theorem claim_C10_capacity (maxSize : Nat) (enableLRU : Bool)
    (ops : List cache.MemOp) (h : 1 ≤ maxSize) :
    (cache.runMemOps (cache.MemoryCache.init maxSize enableLRU) ops).entries.length
        ≤ maxSize ∧
      cache.MemInv (cache.runMemOps (cache.MemoryCache.init maxSize enableLRU) ops) := by
  have hinv := cache.memInv_runMemOps ops _ (cache.memInv_init maxSize enableLRU h)
  refine ⟨?_, hinv⟩
  have hms := cache.runMemOps_maxSize ops (cache.MemoryCache.init maxSize enableLRU)
  have hbound := hinv.2.1
  rw [hms] at hbound
  exact hbound

/-- Witness for C10: three marks into a capacity-one LRU cache stay within
the bound. -/
theorem claim_C10_witness :
    1 ≤ 1 ∧
      (cache.runMemOps (cache.MemoryCache.init 1 true)
        [cache.MemOp.mark 0 "a" 10, cache.MemOp.mark 0 "b" 10,
          cache.MemOp.mark 0 "c" 10]).entries.length ≤ 1 :=
  ⟨by decide,
    (claim_C10_capacity 1 true
      [cache.MemOp.mark 0 "a" 10, cache.MemOp.mark 0 "b" 10,
        cache.MemOp.mark 0 "c" 10] (by decide)).1⟩

namespace eth

/-! ### Step lemmas for `ProcessActivity` -/

theorem processActivity_invalid_to {σ : Type} (p : Processor) (co : Option (CacheOps σ))
    (handler : Option (ProcessedActivity → Except String Unit)) (s : σ)
    (act : AlchemyActivity) (e : String)
    (hv : validateEthereumAddress act.toAddress = some e) :
    ProcessActivity p co handler s act =
      ⟨Except.error (EthError.invalidToAddress e), s, [], []⟩ := by
  simp [ProcessActivity, hv]

theorem processActivity_invalid_from {σ : Type} (p : Processor) (co : Option (CacheOps σ))
    (handler : Option (ProcessedActivity → Except String Unit)) (s : σ)
    (act : AlchemyActivity) (e : String)
    (hv1 : validateEthereumAddress act.toAddress = none)
    (hv : validateEthereumAddress act.fromAddress = some e) :
    ProcessActivity p co handler s act =
      ⟨Except.error (EthError.invalidFromAddress e), s, [], []⟩ := by
  simp [ProcessActivity, hv1, hv]

theorem processActivity_invalid_hash {σ : Type} (p : Processor) (co : Option (CacheOps σ))
    (handler : Option (ProcessedActivity → Except String Unit)) (s : σ)
    (act : AlchemyActivity) (e : String)
    (hv1 : validateEthereumAddress act.toAddress = none)
    (hv2 : validateEthereumAddress act.fromAddress = none)
    (hv : validateTransactionHash (normalizeTxHash act.hash) = some e) :
    ProcessActivity p co handler s act =
      ⟨Except.error (EthError.invalidTransactionHash e), s, [], []⟩ := by
  simp [ProcessActivity, hv1, hv2, hv]

theorem processActivity_hit {σ : Type} (p : Processor) (ops : CacheOps σ)
    (handler : Option (ProcessedActivity → Except String Unit)) (s s1 : σ)
    (act : AlchemyActivity)
    (hv1 : validateEthereumAddress act.toAddress = none)
    (hv2 : validateEthereumAddress act.fromAddress = none)
    (hv3 : validateTransactionHash (normalizeTxHash act.hash) = none)
    (hq : ops.isProcessed s (dedupKey (normalizeTxHash act.hash) act.typeTraceAddress) =
      (Except.ok true, s1)) :
    ProcessActivity p (some ops) handler s act = ⟨Except.ok (), s1, [], []⟩ := by
  simp [ProcessActivity, hv1, hv2, hv3, hq]

theorem processActivity_miss {σ : Type} (p : Processor) (ops : CacheOps σ)
    (handler : Option (ProcessedActivity → Except String Unit)) (s s1 : σ)
    (act : AlchemyActivity)
    (hv1 : validateEthereumAddress act.toAddress = none)
    (hv2 : validateEthereumAddress act.fromAddress = none)
    (hv3 : validateTransactionHash (normalizeTxHash act.hash) = none)
    (hq : ops.isProcessed s (dedupKey (normalizeTxHash act.hash) act.typeTraceAddress) =
      (Except.ok false, s1)) :
    ProcessActivity p (some ops) handler s act =
      ProcessActivityCore p (some ops) handler s1 act (normalizeTxHash act.hash)
        (dedupKey (normalizeTxHash act.hash) act.typeTraceAddress) := by
  simp [ProcessActivity, hv1, hv2, hv3, hq]

theorem processActivity_cache_error {σ : Type} (p : Processor) (ops : CacheOps σ)
    (handler : Option (ProcessedActivity → Except String Unit)) (s s1 : σ)
    (act : AlchemyActivity) (ce : String)
    (hv1 : validateEthereumAddress act.toAddress = none)
    (hv2 : validateEthereumAddress act.fromAddress = none)
    (hv3 : validateTransactionHash (normalizeTxHash act.hash) = none)
    (hq : ops.isProcessed s (dedupKey (normalizeTxHash act.hash) act.typeTraceAddress) =
      (Except.error ce, s1)) :
    ProcessActivity p (some ops) handler s act =
      ProcessActivityCore p (some ops) handler s1 act (normalizeTxHash act.hash)
        (dedupKey (normalizeTxHash act.hash) act.typeTraceAddress) := by
  simp [ProcessActivity, hv1, hv2, hv3, hq]

theorem processActivity_skipLike {σ : Type} (p : Processor) (co : Option (CacheOps σ))
    (handler : Option (ProcessedActivity → Except String Unit)) (s : σ)
    (act : AlchemyActivity)
    (hv1 : validateEthereumAddress act.toAddress = none)
    (hv2 : validateEthereumAddress act.fromAddress = none)
    (hv3 : validateTransactionHash (normalizeTxHash act.hash) = none)
    (hcore : ∀ s' : σ,
      ProcessActivityCore p co handler s' act (normalizeTxHash act.hash)
        (dedupKey (normalizeTxHash act.hash) act.typeTraceAddress) =
        ⟨Except.ok (), s', [], []⟩) :
    (ProcessActivity p co handler s act).result = Except.ok () ∧
      (ProcessActivity p co handler s act).handlerCalls = [] ∧
      (ProcessActivity p co handler s act).markCalls = [] := by
  cases co with
  | none =>
    have hrun : ProcessActivity p none handler s act =
        ProcessActivityCore p none handler s act (normalizeTxHash act.hash)
          (dedupKey (normalizeTxHash act.hash) act.typeTraceAddress) := by
      simp [ProcessActivity, hv1, hv2, hv3]
    rw [hrun, hcore s]
    exact ⟨rfl, rfl, rfl⟩
  | some ops =>
    have hqe : ops.isProcessed s
        (dedupKey (normalizeTxHash act.hash) act.typeTraceAddress) =
        ((ops.isProcessed s
          (dedupKey (normalizeTxHash act.hash) act.typeTraceAddress)).1,
         (ops.isProcessed s
          (dedupKey (normalizeTxHash act.hash) act.typeTraceAddress)).2) := rfl
    cases hr : (ops.isProcessed s
        (dedupKey (normalizeTxHash act.hash) act.typeTraceAddress)).1 with
    | error ce =>
      rw [processActivity_cache_error p ops handler s _ act ce hv1 hv2 hv3
        (by rw [hqe, hr]), hcore]
      exact ⟨rfl, rfl, rfl⟩
    | ok b =>
      cases b with
      | true =>
        rw [processActivity_hit p ops handler s _ act hv1 hv2 hv3 (by rw [hqe, hr])]
        exact ⟨rfl, rfl, rfl⟩
      | false =>
        rw [processActivity_miss p ops handler s _ act hv1 hv2 hv3
          (by rw [hqe, hr]), hcore]
        exact ⟨rfl, rfl, rfl⟩

theorem core_invalid_block {σ : Type} (p : Processor) (co : Option (CacheOps σ))
    (handler : Option (ProcessedActivity → Except String Unit)) (s : σ)
    (act : AlchemyActivity) (txHash uniqueID : String) (e : String)
    (hb : validateBlockNumber act.blockNum = some e) :
    ProcessActivityCore p co handler s act txHash uniqueID =
      ⟨Except.error (EthError.invalidBlockNumber e), s, [], []⟩ := by
  simp [ProcessActivityCore, hb]

theorem core_skip {σ : Type} (p : Processor) (co : Option (CacheOps σ))
    (handler : Option (ProcessedActivity → Except String Unit)) (s : σ)
    (act : AlchemyActivity) (txHash uniqueID : String) (bn : Nat)
    (hb : validateBlockNumber act.blockNum = none)
    (hp : parseUintHex64 (trimPrefix act.blockNum "0x") = some bn)
    (ha : computeACN p act (categoryOf act) (isInternalOf act) = none) :
    ProcessActivityCore p co handler s act txHash uniqueID =
      ⟨Except.ok (), s, [], []⟩ := by
  simp [ProcessActivityCore, hb, hp, ha]

theorem core_zero {σ : Type} (p : Processor) (co : Option (CacheOps σ))
    (handler : Option (ProcessedActivity → Except String Unit)) (s : σ)
    (act : AlchemyActivity) (txHash uniqueID : String) (bn : Nat)
    (amount : Int) (currency network : String)
    (hb : validateBlockNumber act.blockNum = none)
    (hp : parseUintHex64 (trimPrefix act.blockNum "0x") = some bn)
    (ha : computeACN p act (categoryOf act) (isInternalOf act) =
      some (amount, currency, network))
    (hz : amount = 0) :
    ProcessActivityCore p co handler s act txHash uniqueID =
      ⟨Except.ok (), s, [], []⟩ := by
  simp [ProcessActivityCore, hb, hp, ha, hz]

theorem core_handler_error {σ : Type} (p : Processor) (co : Option (CacheOps σ))
    (h : ProcessedActivity → Except String Unit) (s : σ)
    (act : AlchemyActivity) (txHash uniqueID : String) (bn : Nat)
    (amount : Int) (currency network : String) (e : String)
    (hb : validateBlockNumber act.blockNum = none)
    (hp : parseUintHex64 (trimPrefix act.blockNum "0x") = some bn)
    (ha : computeACN p act (categoryOf act) (isInternalOf act) =
      some (amount, currency, network))
    (hz : amount ≠ 0)
    (hh : h (paOf act txHash bn amount currency network) = Except.error e) :
    ProcessActivityCore p co (some h) s act txHash uniqueID =
      ⟨Except.error (EthError.handlerError e), s,
        [paOf act txHash bn amount currency network], []⟩ := by
  simp [ProcessActivityCore, hb, hp, ha, hz, hh]

theorem core_handler_ok {σ : Type} (p : Processor) (ops : CacheOps σ)
    (h : ProcessedActivity → Except String Unit) (s : σ)
    (act : AlchemyActivity) (txHash uniqueID : String) (bn : Nat)
    (amount : Int) (currency network : String)
    (hb : validateBlockNumber act.blockNum = none)
    (hp : parseUintHex64 (trimPrefix act.blockNum "0x") = some bn)
    (ha : computeACN p act (categoryOf act) (isInternalOf act) =
      some (amount, currency, network))
    (hz : amount ≠ 0)
    (hh : h (paOf act txHash bn amount currency network) = Except.ok ()) :
    ProcessActivityCore p (some ops) (some h) s act txHash uniqueID =
      ⟨Except.ok (), (ops.markProcessed s uniqueID ttl24h).2,
        [paOf act txHash bn amount currency network], [(uniqueID, ttl24h)]⟩ := by
  simp [ProcessActivityCore, hb, hp, ha, hz, hh]

theorem dedupKey_trace_ne (hsh t1 t2 : String) (h1 : t1 ≠ "") (h2 : t2 ≠ "")
    (hne : t1 ≠ t2) : dedupKey hsh (some t1) ≠ dedupKey hsh (some t2) := by
  simp only [dedupKey, if_pos h1, if_pos h2]
  intro heq
  apply hne
  have hd := congrArg String.data heq
  simp only [String.data_append, List.append_assoc, List.append_cancel_left_eq,
    List.cons.injEq, true_and] at hd
  cases t1
  cases t2
  exact congrArg String.mk hd

theorem core_congr_mark {σ : Type} (p : Processor) (ops1 ops2 : CacheOps σ)
    (handler : Option (ProcessedActivity → Except String Unit)) (s : σ)
    (act : AlchemyActivity) (txHash uniqueID : String)
    (hm : ops1.markProcessed = ops2.markProcessed) :
    ProcessActivityCore p (some ops1) handler s act txHash uniqueID =
      ProcessActivityCore p (some ops2) handler s act txHash uniqueID := by
  simp only [ProcessActivityCore, hm]

end eth

namespace solana

/-! ### Step lemmas for `ProcessTransaction` -/

theorem processTransaction_hit {σ : Type} (p : Processor) (ops : CacheOps σ)
    (handler : Option (ProcessedTransaction → Except String Unit)) (s s1 : σ)
    (tx : AlchemySolanaTransaction) (slot : Nat) (now : Int)
    (td : SolTxDetail) (tds : List SolTxDetail) (meta : SolMeta) (ms : List SolMeta)
    (msg : SolMessage) (msgs : List SolMessage)
    (htx : tx.transaction = td :: tds) (hmeta : tx.meta = meta :: ms)
    (hmsg : td.message = msg :: msgs) (hkeys : msg.accountKeys ≠ [])
    (hq : ops.isProcessed s tx.signature = (Except.ok true, s1)) :
    ProcessTransaction p (some ops) handler s tx slot now =
      ⟨Except.ok (), s1, [], []⟩ := by
  simp [ProcessTransaction, htx, hmeta, hmsg, hkeys, hq]

theorem processTransaction_miss {σ : Type} (p : Processor) (ops : CacheOps σ)
    (handler : Option (ProcessedTransaction → Except String Unit)) (s s1 : σ)
    (tx : AlchemySolanaTransaction) (slot : Nat) (now : Int)
    (td : SolTxDetail) (tds : List SolTxDetail) (meta : SolMeta) (ms : List SolMeta)
    (msg : SolMessage) (msgs : List SolMessage)
    (htx : tx.transaction = td :: tds) (hmeta : tx.meta = meta :: ms)
    (hmsg : td.message = msg :: msgs) (hkeys : msg.accountKeys ≠ [])
    (hq : ops.isProcessed s tx.signature = (Except.ok false, s1)) :
    ProcessTransaction p (some ops) handler s tx slot now =
      ProcessTransactionCore p (some ops) handler s1 tx.signature slot now
        msg.accountKeys msg meta := by
  simp [ProcessTransaction, htx, hmeta, hmsg, hkeys, hq]

theorem processTransaction_cache_error {σ : Type} (p : Processor) (ops : CacheOps σ)
    (handler : Option (ProcessedTransaction → Except String Unit)) (s s1 : σ)
    (tx : AlchemySolanaTransaction) (slot : Nat) (now : Int)
    (td : SolTxDetail) (tds : List SolTxDetail) (meta : SolMeta) (ms : List SolMeta)
    (msg : SolMessage) (msgs : List SolMessage) (ce : String)
    (htx : tx.transaction = td :: tds) (hmeta : tx.meta = meta :: ms)
    (hmsg : td.message = msg :: msgs) (hkeys : msg.accountKeys ≠ [])
    (hq : ops.isProcessed s tx.signature = (Except.error ce, s1)) :
    ProcessTransaction p (some ops) handler s tx slot now =
      ProcessTransactionCore p (some ops) handler s1 tx.signature slot now
        msg.accountKeys msg meta := by
  simp [ProcessTransaction, htx, hmeta, hmsg, hkeys, hq]

theorem solCore_handler_error {σ : Type} (p : Processor) (co : Option (CacheOps σ))
    (h : ProcessedTransaction → Except String Unit) (s : σ)
    (signature : String) (slot : Nat) (now : Int) (accountKeys : List String)
    (msg : SolMessage) (meta : SolMeta) (e : String)
    (hne : extractNativeTransfers accountKeys meta ≠ [] ∨
      extractTokenTransfers p accountKeys msg meta ≠ [])
    (hh : h (ptxOf p signature slot now accountKeys msg meta) = Except.error e) :
    ProcessTransactionCore p co (some h) s signature slot now accountKeys msg meta =
      ⟨Except.error (SolError.handlerError e), s,
        [ptxOf p signature slot now accountKeys msg meta], []⟩ := by
  rcases hne with hne | hne <;> simp [ProcessTransactionCore, hne, hh]

theorem solCore_handler_ok {σ : Type} (p : Processor) (ops : CacheOps σ)
    (h : ProcessedTransaction → Except String Unit) (s : σ)
    (signature : String) (slot : Nat) (now : Int) (accountKeys : List String)
    (msg : SolMessage) (meta : SolMeta)
    (hne : extractNativeTransfers accountKeys meta ≠ [] ∨
      extractTokenTransfers p accountKeys msg meta ≠ [])
    (hh : h (ptxOf p signature slot now accountKeys msg meta) = Except.ok ()) :
    ProcessTransactionCore p (some ops) (some h) s signature slot now accountKeys msg meta =
      ⟨Except.ok (), (ops.markProcessed s signature ttl24h).2,
        [ptxOf p signature slot now accountKeys msg meta], [(signature, ttl24h)]⟩ := by
  rcases hne with hne | hne <;> simp [ProcessTransactionCore, hne, hh]

theorem solCore_no_transfers {σ : Type} (p : Processor) (co : Option (CacheOps σ))
    (handler : Option (ProcessedTransaction → Except String Unit)) (s : σ)
    (signature : String) (slot : Nat) (now : Int) (accountKeys : List String)
    (msg : SolMessage) (meta : SolMeta)
    (h1 : extractNativeTransfers accountKeys meta = [])
    (h2 : extractTokenTransfers p accountKeys msg meta = []) :
    ProcessTransactionCore p co handler s signature slot now accountKeys msg meta =
      ⟨Except.ok (), s, [], []⟩ := by
  simp [ProcessTransactionCore, h1, h2]

theorem solCore_congr_mark {σ : Type} (p : Processor) (ops1 ops2 : CacheOps σ)
    (handler : Option (ProcessedTransaction → Except String Unit)) (s : σ)
    (signature : String) (slot : Nat) (now : Int) (accountKeys : List String)
    (msg : SolMessage) (meta : SolMeta)
    (hm : ops1.markProcessed = ops2.markProcessed) :
    ProcessTransactionCore p (some ops1) handler s signature slot now
        accountKeys msg meta =
      ProcessTransactionCore p (some ops2) handler s signature slot now
        accountKeys msg meta := by
  simp only [ProcessTransactionCore, hm]

/-! ### The native-transfer pairing loop as a declarative scan -/

theorem innerScanFrom_eq_find? (pre post : List Int) (i : Nat) :
    ∀ l : List Nat, innerScanFrom pre post i l =
      l.find? (fun j => decide (i ≠ j ∧ pre.getD j 0 > post.getD j 0 ∧
        0 < i64sub (pre.getD j 0) (post.getD j 0))) := by
  intro l
  induction l with
  | nil => rfl
  | cons j js ih =>
    simp only [innerScanFrom, List.find?_cons]
    by_cases h : i ≠ j ∧ pre.getD j 0 > post.getD j 0 ∧
        0 < i64sub (pre.getD j 0) (post.getD j 0)
    · rw [if_pos h, decide_eq_true h]
    · rw [if_neg h, decide_eq_false h]
      exact ih

theorem outerScan_eq_filterMap (keys : List String) (pre post : List Int) :
    ∀ l : List Nat, outerScan keys pre post l = l.filterMap (fun i =>
      if 0 < i64sub (post.getD i 0) (pre.getD i 0) then
        ((List.range keys.length).find? (fun j =>
          decide (i ≠ j ∧ pre.getD j 0 > post.getD j 0 ∧
            0 < i64sub (pre.getD j 0) (post.getD j 0)))).map
          (fun j => ⟨keys.getD j "", keys.getD i "",
            i64sub (post.getD i 0) (pre.getD i 0)⟩)
      else none) := by
  intro l
  induction l with
  | nil => rfl
  | cons i is ih =>
    rw [List.filterMap_cons]
    simp only [outerScan]
    rw [innerScanFrom_eq_find?]
    by_cases hc : 0 < i64sub (post.getD i 0) (pre.getD i 0)
    · rw [if_pos hc, if_pos hc]
      cases hf : (List.range keys.length).find? (fun j =>
          decide (i ≠ j ∧ pre.getD j 0 > post.getD j 0 ∧
            0 < i64sub (pre.getD j 0) (post.getD j 0))) with
      | none => simpa using ih
      | some j => simpa using ih
    · rw [if_neg hc, if_neg hc]
      simpa using ih

end solana

/-- Claim C6 (amended): with the three array lengths equal, the native
transfers are exactly: for each index `i` with a positive (wrapped)
credited delta, at most one transfer from the first index `j ≠ i` whose
pre-balance exceeds its post-balance by a positive amount, with amount
equal to the credited delta `post[i] - pre[i]` (not the smaller of the
two deltas); with mismatched lengths no native transfer is emitted. -/
theorem claim_C6_native_pairing (keys : List String) (meta : solana.SolMeta) :
    (meta.preBalances.length = meta.postBalances.length ∧
        meta.preBalances.length = keys.length →
      solana.extractNativeTransfers keys meta =
        solana.nativeTransfersSpec keys meta.preBalances meta.postBalances) ∧
    (¬ (meta.preBalances.length = meta.postBalances.length ∧
        meta.preBalances.length = keys.length) →
      solana.extractNativeTransfers keys meta = []) := by
  constructor
  · intro h
    rw [solana.extractNativeTransfers, if_pos h, solana.outerScan_eq_filterMap,
      solana.nativeTransfersSpec]
  · intro h
    rw [solana.extractNativeTransfers, if_neg h]

/-- Witness for C6 at concrete balances: both loop and declarative form
emit one transfer of the credited amount. -/
theorem claim_C6_witness :
    solana.extractNativeTransfers ["a", "b"] ⟨0, [10, 0], [0, 5], [], false, []⟩ =
      solana.nativeTransfersSpec ["a", "b"] [10, 0] [0, 5] :=
  (claim_C6_native_pairing ["a", "b"] ⟨0, [10, 0], [0, 5], [], false, []⟩).1
    (by decide)

theorem weiOf_zero : eth.weiOf 0 = 0 := by decide

/-- Claim C1 (amended): for every Ethereum activity with valid addresses,
hash and block number, no trace address, and whose classification
produces a nonzero amount (so the handler is reached), feeding the same
raw activity twice through `ProcessActivity` with a fresh live
in-process cache and an always-succeeding handler invokes the handler
exactly once: the second run observes the mark left by the first and
skips. -/
theorem claim_C1_idempotence (p : eth.Processor) (act : eth.AlchemyActivity)
    (maxSize : Nat) (enableLRU : Bool) (t : Int) (bn : Nat)
    (amount : Int) (currency network : String)
    (h : eth.ProcessedActivity → Except String Unit)
    (hv1 : eth.validateEthereumAddress act.toAddress = none)
    (hv2 : eth.validateEthereumAddress act.fromAddress = none)
    (hv3 : eth.validateTransactionHash (eth.normalizeTxHash act.hash) = none)
    (_htrace : act.typeTraceAddress = none)
    (hb : eth.validateBlockNumber act.blockNum = none)
    (hp : parseUintHex64 (trimPrefix act.blockNum "0x") = some bn)
    (ha : eth.computeACN p act (eth.categoryOf act) (eth.isInternalOf act) =
      some (amount, currency, network))
    (hz : amount ≠ 0)
    (_hmax : 1 ≤ maxSize)
    (hh : ∀ x, h x = Except.ok ()) :
    (eth.ProcessActivity p (some (cache.MemoryCache.ops t)) (some h)
      (cache.MemoryCache.init maxSize enableLRU) act).handlerCalls =
      [eth.paOf act (eth.normalizeTxHash act.hash) bn amount currency network] ∧
    (eth.ProcessActivity p (some (cache.MemoryCache.ops t)) (some h)
      (eth.ProcessActivity p (some (cache.MemoryCache.ops t)) (some h)
        (cache.MemoryCache.init maxSize enableLRU) act).cacheState
      act).handlerCalls = [] ∧
    (eth.ProcessActivity p (some (cache.MemoryCache.ops t)) (some h)
      (eth.ProcessActivity p (some (cache.MemoryCache.ops t)) (some h)
        (cache.MemoryCache.init maxSize enableLRU) act).cacheState
      act).result = Except.ok () := by
  have hip := cache.isProcessed_of_lookup_none t
    (cache.MemoryCache.init maxSize enableLRU)
    (eth.dedupKey (eth.normalizeTxHash act.hash) act.typeTraceAddress) rfl
  have hq1 : (cache.MemoryCache.ops t).isProcessed
      (cache.MemoryCache.init maxSize enableLRU)
      (eth.dedupKey (eth.normalizeTxHash act.hash) act.typeTraceAddress) =
      (Except.ok false, cache.MemoryCache.init maxSize enableLRU) := by
    simp [cache.MemoryCache.ops, hip]
  have hrun1 : eth.ProcessActivity p (some (cache.MemoryCache.ops t)) (some h)
      (cache.MemoryCache.init maxSize enableLRU) act =
      ⟨Except.ok (),
        ((cache.MemoryCache.ops t).markProcessed
          (cache.MemoryCache.init maxSize enableLRU)
          (eth.dedupKey (eth.normalizeTxHash act.hash) act.typeTraceAddress)
          ttl24h).2,
        [eth.paOf act (eth.normalizeTxHash act.hash) bn amount currency network],
        [(eth.dedupKey (eth.normalizeTxHash act.hash) act.typeTraceAddress,
          ttl24h)]⟩ := by
    rw [eth.processActivity_miss p _ (some h) _ _ act hv1 hv2 hv3 hq1]
    exact eth.core_handler_ok p _ h _ act _ _ bn amount currency network
      hb hp ha hz (hh _)
  have hcs : (eth.ProcessActivity p (some (cache.MemoryCache.ops t)) (some h)
      (cache.MemoryCache.init maxSize enableLRU) act).cacheState =
      cache.MemoryCache.MarkProcessed t (cache.MemoryCache.init maxSize enableLRU)
        (eth.dedupKey (eth.normalizeTxHash act.hash) act.typeTraceAddress)
        ttl24h := by
    rw [hrun1]
    rfl
  have hl2 : cache.lookupEntry
      (eth.dedupKey (eth.normalizeTxHash act.hash) act.typeTraceAddress)
      (cache.MemoryCache.MarkProcessed t (cache.MemoryCache.init maxSize enableLRU)
        (eth.dedupKey (eth.normalizeTxHash act.hash) act.typeTraceAddress)
        ttl24h).entries = some (t + ttl24h) := by
    rw [cache.markProcessed_entries]
    exact cache.lookupEntry_putEntry_self _ _ _
  have hpos : (0 : Int) < ttl24h := by decide
  have hexp : ¬ t > t + ttl24h := by omega
  have h1 : (cache.MemoryCache.IsProcessed t
      (cache.MemoryCache.MarkProcessed t (cache.MemoryCache.init maxSize enableLRU)
        (eth.dedupKey (eth.normalizeTxHash act.hash) act.typeTraceAddress) ttl24h)
      (eth.dedupKey (eth.normalizeTxHash act.hash) act.typeTraceAddress)).1 =
      true := by
    rw [cache.isProcessed_of_live t _ _ (t + ttl24h) hl2 hexp]
  have hq2 : (cache.MemoryCache.ops t).isProcessed
      (cache.MemoryCache.MarkProcessed t (cache.MemoryCache.init maxSize enableLRU)
        (eth.dedupKey (eth.normalizeTxHash act.hash) act.typeTraceAddress) ttl24h)
      (eth.dedupKey (eth.normalizeTxHash act.hash) act.typeTraceAddress) =
      (Except.ok true,
        (cache.MemoryCache.IsProcessed t
          (cache.MemoryCache.MarkProcessed t
            (cache.MemoryCache.init maxSize enableLRU)
            (eth.dedupKey (eth.normalizeTxHash act.hash) act.typeTraceAddress)
            ttl24h)
          (eth.dedupKey (eth.normalizeTxHash act.hash) act.typeTraceAddress)).2) := by
    show (Except.ok (cache.MemoryCache.IsProcessed t _ _).1,
      (cache.MemoryCache.IsProcessed t _ _).2) = _
    rw [h1]
  have hrun2 := eth.processActivity_hit p (cache.MemoryCache.ops t) (some h)
    _ _ act hv1 hv2 hv3 hq2
  refine ⟨by rw [hrun1], ?_, ?_⟩
  · rw [hcs, hrun2]
  · rw [hcs, hrun2]

/-- Witness for C1 (amended) at a concrete one-ether external activity:
the first run invokes the handler once, the second skips. -/
theorem claim_C1_witness :
    (eth.ProcessActivity ⟨[], "eth-mainnet"⟩ (some (cache.MemoryCache.ops 0))
      (some (fun _ => Except.ok ())) (cache.MemoryCache.init 10 false)
      ⟨"0x1", "0xcccccccccccccccccccccccccccccccccccccccccccccccccccccccccccccccc",
        "0xaaaaaaaaaaaaaaaaaaaaaaaaaaaaaaaaaaaaaaaa",
        "0xbbbbbbbbbbbbbbbbbbbbbbbbbbbbbbbbbbbbbbbb",
        some 1, none, "", "external", none, none⟩).handlerCalls =
      [eth.paOf
        ⟨"0x1", "0xcccccccccccccccccccccccccccccccccccccccccccccccccccccccccccccccc",
          "0xaaaaaaaaaaaaaaaaaaaaaaaaaaaaaaaaaaaaaaaa",
          "0xbbbbbbbbbbbbbbbbbbbbbbbbbbbbbbbbbbbbbbbb",
          some 1, none, "", "external", none, none⟩
        (eth.normalizeTxHash
          "0xcccccccccccccccccccccccccccccccccccccccccccccccccccccccccccccccc")
        1 (10 ^ 18) "ETH" "MAINNET"] ∧
    (eth.ProcessActivity ⟨[], "eth-mainnet"⟩ (some (cache.MemoryCache.ops 0))
      (some (fun _ => Except.ok ()))
      (eth.ProcessActivity ⟨[], "eth-mainnet"⟩ (some (cache.MemoryCache.ops 0))
        (some (fun _ => Except.ok ())) (cache.MemoryCache.init 10 false)
        ⟨"0x1", "0xcccccccccccccccccccccccccccccccccccccccccccccccccccccccccccccccc",
          "0xaaaaaaaaaaaaaaaaaaaaaaaaaaaaaaaaaaaaaaaa",
          "0xbbbbbbbbbbbbbbbbbbbbbbbbbbbbbbbbbbbbbbbb",
          some 1, none, "", "external", none, none⟩).cacheState
      ⟨"0x1", "0xcccccccccccccccccccccccccccccccccccccccccccccccccccccccccccccccc",
        "0xaaaaaaaaaaaaaaaaaaaaaaaaaaaaaaaaaaaaaaaa",
        "0xbbbbbbbbbbbbbbbbbbbbbbbbbbbbbbbbbbbbbbbb",
        some 1, none, "", "external", none, none⟩).handlerCalls = [] ∧
    (eth.ProcessActivity ⟨[], "eth-mainnet"⟩ (some (cache.MemoryCache.ops 0))
      (some (fun _ => Except.ok ()))
      (eth.ProcessActivity ⟨[], "eth-mainnet"⟩ (some (cache.MemoryCache.ops 0))
        (some (fun _ => Except.ok ())) (cache.MemoryCache.init 10 false)
        ⟨"0x1", "0xcccccccccccccccccccccccccccccccccccccccccccccccccccccccccccccccc",
          "0xaaaaaaaaaaaaaaaaaaaaaaaaaaaaaaaaaaaaaaaa",
          "0xbbbbbbbbbbbbbbbbbbbbbbbbbbbbbbbbbbbbbbbb",
          some 1, none, "", "external", none, none⟩).cacheState
      ⟨"0x1", "0xcccccccccccccccccccccccccccccccccccccccccccccccccccccccccccccccc",
        "0xaaaaaaaaaaaaaaaaaaaaaaaaaaaaaaaaaaaaaaaa",
        "0xbbbbbbbbbbbbbbbbbbbbbbbbbbbbbbbbbbbbbbbb",
        some 1, none, "", "external", none, none⟩).result = Except.ok () :=
  claim_C1_idempotence ⟨[], "eth-mainnet"⟩
    ⟨"0x1", "0xcccccccccccccccccccccccccccccccccccccccccccccccccccccccccccccccc",
      "0xaaaaaaaaaaaaaaaaaaaaaaaaaaaaaaaaaaaaaaaa",
      "0xbbbbbbbbbbbbbbbbbbbbbbbbbbbbbbbbbbbbbbbb",
      some 1, none, "", "external", none, none⟩
    10 false 0 1 (10 ^ 18) "ETH" "MAINNET" (fun _ => Except.ok ())
    (by decide) (by decide) (by decide) rfl (by decide) (by decide) (by decide)
    (by decide) (by decide) (fun _ => rfl)

/-- Claim C1 counterexample: a zero-value external activity with valid
addresses, hash and block number and no trace address, fed twice through
`ProcessActivity` with a live fresh in-process cache and a succeeding
handler, invokes the handler zero times — not exactly once as the claim
states for every such activity. -/
theorem claim_C1_counterexample :
    ((eth.ProcessActivity ⟨[], "eth-mainnet"⟩ (some (cache.MemoryCache.ops 0))
        (some (fun _ => Except.ok ())) (cache.MemoryCache.init 10 false)
        ⟨"0x1", "0xcccccccccccccccccccccccccccccccccccccccccccccccccccccccccccccccc",
          "0xaaaaaaaaaaaaaaaaaaaaaaaaaaaaaaaaaaaaaaaa",
          "0xbbbbbbbbbbbbbbbbbbbbbbbbbbbbbbbbbbbbbbbb",
          some 0, none, "", "external", none, none⟩).handlerCalls ++
      (eth.ProcessActivity ⟨[], "eth-mainnet"⟩ (some (cache.MemoryCache.ops 0))
        (some (fun _ => Except.ok ()))
        (eth.ProcessActivity ⟨[], "eth-mainnet"⟩ (some (cache.MemoryCache.ops 0))
          (some (fun _ => Except.ok ())) (cache.MemoryCache.init 10 false)
          ⟨"0x1", "0xcccccccccccccccccccccccccccccccccccccccccccccccccccccccccccccccc",
            "0xaaaaaaaaaaaaaaaaaaaaaaaaaaaaaaaaaaaaaaaa",
            "0xbbbbbbbbbbbbbbbbbbbbbbbbbbbbbbbbbbbbbbbb",
            some 0, none, "", "external", none, none⟩).cacheState
        ⟨"0x1", "0xcccccccccccccccccccccccccccccccccccccccccccccccccccccccccccccccc",
          "0xaaaaaaaaaaaaaaaaaaaaaaaaaaaaaaaaaaaaaaaa",
          "0xbbbbbbbbbbbbbbbbbbbbbbbbbbbbbbbbbbbbbbbb",
          some 0, none, "", "external", none, none⟩).handlerCalls).length = 0 := by
  decide

/-- Claim C8: every `external` activity with value exactly 0 that passes
all validations is a non-event: `ProcessActivity` returns success with
no handler invocation and no `MarkProcessed` call, whatever the cache
backend does on the consult. -/
theorem claim_C8_zero_suppression {σ : Type} (p : eth.Processor)
    (co : Option (CacheOps σ))
    (handler : Option (eth.ProcessedActivity → Except String Unit))
    (s : σ) (act : eth.AlchemyActivity) (bn : Nat)
    (hv1 : eth.validateEthereumAddress act.toAddress = none)
    (hv2 : eth.validateEthereumAddress act.fromAddress = none)
    (hv3 : eth.validateTransactionHash (eth.normalizeTxHash act.hash) = none)
    (hb : eth.validateBlockNumber act.blockNum = none)
    (hp : parseUintHex64 (trimPrefix act.blockNum "0x") = some bn)
    (hcat : eth.categoryOf act = "external")
    (hval : act.value = some 0) :
    (eth.ProcessActivity p co handler s act).result = Except.ok () ∧
      (eth.ProcessActivity p co handler s act).handlerCalls = [] ∧
      (eth.ProcessActivity p co handler s act).markCalls = [] := by
  have hacn : eth.computeACN p act (eth.categoryOf act) (eth.isInternalOf act) =
      some (0, "ETH", eth.nativeNetwork p.chainID (eth.categoryOf act)) := by
    rw [hcat]
    simp [eth.computeACN, hval, weiOf_zero]
  exact eth.processActivity_skipLike p co handler s act hv1 hv2 hv3
    (fun s' => eth.core_zero p co handler s' act _ _ bn 0 "ETH" _ hb hp hacn rfl)

/-- Witness for C8: a concrete zero-value external activity on a fresh
in-process cache is suppressed. -/
theorem claim_C8_witness :
    (eth.ProcessActivity ⟨[], "eth-mainnet"⟩
      (some (cache.MemoryCache.ops 0)) (some (fun _ => Except.ok ()))
      (cache.MemoryCache.init 10 false)
      ⟨"0x1", "0xcccccccccccccccccccccccccccccccccccccccccccccccccccccccccccccccc",
        "0xaaaaaaaaaaaaaaaaaaaaaaaaaaaaaaaaaaaaaaaa",
        "0xbbbbbbbbbbbbbbbbbbbbbbbbbbbbbbbbbbbbbbbb",
        some 0, none, "", "external", none, none⟩).result = Except.ok () ∧
    (eth.ProcessActivity ⟨[], "eth-mainnet"⟩
      (some (cache.MemoryCache.ops 0)) (some (fun _ => Except.ok ()))
      (cache.MemoryCache.init 10 false)
      ⟨"0x1", "0xcccccccccccccccccccccccccccccccccccccccccccccccccccccccccccccccc",
        "0xaaaaaaaaaaaaaaaaaaaaaaaaaaaaaaaaaaaaaaaa",
        "0xbbbbbbbbbbbbbbbbbbbbbbbbbbbbbbbbbbbbbbbb",
        some 0, none, "", "external", none, none⟩).handlerCalls = [] ∧
    (eth.ProcessActivity ⟨[], "eth-mainnet"⟩
      (some (cache.MemoryCache.ops 0)) (some (fun _ => Except.ok ()))
      (cache.MemoryCache.init 10 false)
      ⟨"0x1", "0xcccccccccccccccccccccccccccccccccccccccccccccccccccccccccccccccc",
        "0xaaaaaaaaaaaaaaaaaaaaaaaaaaaaaaaaaaaaaaaa",
        "0xbbbbbbbbbbbbbbbbbbbbbbbbbbbbbbbbbbbbbbbb",
        some 0, none, "", "external", none, none⟩).markCalls = [] :=
  claim_C8_zero_suppression ⟨[], "eth-mainnet"⟩
    (some (cache.MemoryCache.ops 0)) (some (fun _ => Except.ok ()))
    (cache.MemoryCache.init 10 false) _ 1
    (by decide) (by decide) (by decide) (by decide) (by decide) (by decide) rfl

/-- Claim C9 (amended): an erc721-category activity reaches the erc721
branch only when it carries no nonempty raw-contract address; there the
token-id and raw-contract fields must be present (an absent one skips
the event with no handler call and no mark, whatever the cache answers),
and the output amount is fixed at 1.  An empty-string token id is
accepted, not skipped. -/
theorem claim_C9_erc721 {σ : Type} (p : eth.Processor)
    (co : Option (CacheOps σ)) (ops : CacheOps σ)
    (handler : Option (eth.ProcessedActivity → Except String Unit))
    (h : eth.ProcessedActivity → Except String Unit)
    (s s1 : σ) (act : eth.AlchemyActivity) (bn : Nat)
    (rc : eth.AlchemyRawContract) (tid : String)
    (hv1 : eth.validateEthereumAddress act.toAddress = none)
    (hv2 : eth.validateEthereumAddress act.fromAddress = none)
    (hv3 : eth.validateTransactionHash (eth.normalizeTxHash act.hash) = none)
    (hb : eth.validateBlockNumber act.blockNum = none)
    (hp : parseUintHex64 (trimPrefix act.blockNum "0x") = some bn)
    (hcat : eth.categoryOf act = "erc721") :
    (eth.hasContractAddress act = false →
      (act.erc721TokenId = none ∨ act.rawContract = none) →
      (eth.ProcessActivity p co handler s act).result = Except.ok () ∧
        (eth.ProcessActivity p co handler s act).handlerCalls = [] ∧
        (eth.ProcessActivity p co handler s act).markCalls = []) ∧
    (act.erc721TokenId = some tid → act.rawContract = some rc → rc.address = "" →
      eth.computeACN p act (eth.categoryOf act) (eth.isInternalOf act) =
        some (1, eth.resolveCurrency p rc.address act.asset,
          eth.taggedNetwork p.chainID "ERC-721" (eth.isInternalOf act)) ∧
      (ops.isProcessed s (eth.dedupKey (eth.normalizeTxHash act.hash)
          act.typeTraceAddress) = (Except.ok false, s1) →
        h (eth.paOf act (eth.normalizeTxHash act.hash) bn 1
          (eth.resolveCurrency p rc.address act.asset)
          (eth.taggedNetwork p.chainID "ERC-721" (eth.isInternalOf act))) =
            Except.ok () →
        eth.ProcessActivity p (some ops) (some h) s act =
          ⟨Except.ok (),
            (ops.markProcessed s1 (eth.dedupKey (eth.normalizeTxHash act.hash)
              act.typeTraceAddress) ttl24h).2,
            [eth.paOf act (eth.normalizeTxHash act.hash) bn 1
              (eth.resolveCurrency p rc.address act.asset)
              (eth.taggedNetwork p.chainID "ERC-721" (eth.isInternalOf act))],
            [(eth.dedupKey (eth.normalizeTxHash act.hash) act.typeTraceAddress,
              ttl24h)]⟩)) := by
  constructor
  · intro hnca hno
    have ha : eth.computeACN p act (eth.categoryOf act) (eth.isInternalOf act) =
        none := by
      rw [hcat]
      rcases hno with h1 | h1
      · rcases hrc2 : act.rawContract with _ | rc2 <;>
          simp [eth.computeACN, h1, hrc2, hnca]
      · rcases hti : act.erc721TokenId with _ | t <;>
          simp [eth.computeACN, h1, hti, hnca]
    exact eth.processActivity_skipLike p co handler s act hv1 hv2 hv3
      (fun s' => eth.core_skip p co handler s' act _ _ bn hb hp ha)
  · intro hti hrc hadr
    have hnca : eth.hasContractAddress act = false := by
      simp [eth.hasContractAddress, hrc, hadr]
    have hacn : eth.computeACN p act (eth.categoryOf act) (eth.isInternalOf act) =
        some (1, eth.resolveCurrency p rc.address act.asset,
          eth.taggedNetwork p.chainID "ERC-721" (eth.isInternalOf act)) := by
      rw [hcat]
      simp [eth.computeACN, hti, hrc, hnca]
    refine ⟨hacn, ?_⟩
    intro hq hh
    rw [eth.processActivity_miss p ops (some h) s s1 act hv1 hv2 hv3 hq]
    exact eth.core_handler_ok p ops h s1 act _ _ bn 1 _ _ hb hp hacn
      (by decide) hh

/-- Witness for C9 at a concrete erc721 activity with an empty-string
token id and empty contract address: the handler is invoked once with
amount 1 and the key is marked. -/
theorem claim_C9_witness :
    eth.ProcessActivity ⟨[], "eth-mainnet"⟩
      (some (cache.MemoryCache.ops 0)) (some (fun _ => Except.ok ()))
      (cache.MemoryCache.init 10 false)
      ⟨"0x1", "0xcccccccccccccccccccccccccccccccccccccccccccccccccccccccccccccccc",
        "0xaaaaaaaaaaaaaaaaaaaaaaaaaaaaaaaaaaaaaaaa",
        "0xbbbbbbbbbbbbbbbbbbbbbbbbbbbbbbbbbbbbbbbb",
        none, some "", "", "erc721", some ⟨"", "", none⟩, none⟩ =
      ⟨Except.ok (),
        ((cache.MemoryCache.ops 0).markProcessed (cache.MemoryCache.init 10 false)
          (eth.dedupKey (eth.normalizeTxHash
            "0xcccccccccccccccccccccccccccccccccccccccccccccccccccccccccccccccc")
            none) ttl24h).2,
        [eth.paOf
          ⟨"0x1", "0xcccccccccccccccccccccccccccccccccccccccccccccccccccccccccccccccc",
            "0xaaaaaaaaaaaaaaaaaaaaaaaaaaaaaaaaaaaaaaaa",
            "0xbbbbbbbbbbbbbbbbbbbbbbbbbbbbbbbbbbbbbbbb",
            none, some "", "", "erc721", some ⟨"", "", none⟩, none⟩
          (eth.normalizeTxHash
            "0xcccccccccccccccccccccccccccccccccccccccccccccccccccccccccccccccc")
          1 1 (eth.resolveCurrency ⟨[], "eth-mainnet"⟩ "" "")
          (eth.taggedNetwork "eth-mainnet" "ERC-721" false)],
        [(eth.dedupKey (eth.normalizeTxHash
            "0xcccccccccccccccccccccccccccccccccccccccccccccccccccccccccccccccc")
            none, ttl24h)]⟩ :=
  ((claim_C9_erc721 ⟨[], "eth-mainnet"⟩ (some (cache.MemoryCache.ops 0))
    (cache.MemoryCache.ops 0) (some (fun _ => Except.ok ()))
    (fun _ => Except.ok ()) (cache.MemoryCache.init 10 false)
    (cache.MemoryCache.init 10 false) _ 1 ⟨"", "", none⟩ ""
    (by decide) (by decide) (by decide) (by decide) (by decide) (by decide)).2
    rfl rfl rfl).2 (by decide) rfl

/-- Claim C9 counterexample: an erc721 activity with a present but
empty-string token id (and no contract address) is not skipped — the
handler is invoked with amount 1, although the claim requires a
non-empty token id. -/
theorem claim_C9_counterexample :
    (eth.ProcessActivity ⟨[], "eth-mainnet"⟩
      (some (cache.MemoryCache.ops 0)) (some (fun _ => Except.ok ()))
      (cache.MemoryCache.init 10 false)
      ⟨"0x1", "0xcccccccccccccccccccccccccccccccccccccccccccccccccccccccccccccccc",
        "0xaaaaaaaaaaaaaaaaaaaaaaaaaaaaaaaaaaaaaaaa",
        "0xbbbbbbbbbbbbbbbbbbbbbbbbbbbbbbbbbbbbbbbb",
        none, some "", "", "erc721", some ⟨"", "", none⟩, none⟩).handlerCalls =
      [⟨"0xcccccccccccccccccccccccccccccccccccccccccccccccccccccccccccccccc",
        "0xaaaaaaaaaaaaaaaaaaaaaaaaaaaaaaaaaaaaaaaa",
        "0xbbbbbbbbbbbbbbbbbbbbbbbbbbbbbbbbbbbbbbbb",
        "1", "UNKNOWN", "erc721", 1, "ERC-721", false⟩] := by
  decide

/-- Claim C5 (amended): address and hash validation precede the cache
consult, so those failures return a validation error with no handler
call, no mark call and an untouched cache state regardless of cache
contents; block-number validation happens after the consult, so with no
confirmed hit an invalid block number returns a validation error with no
handler call and no mark, while on a confirmed hit the event is skipped
with success rather than a validation error. -/
theorem claim_C5_validation_order {σ : Type} (p : eth.Processor)
    (co : Option (CacheOps σ)) (ops : CacheOps σ)
    (handler : Option (eth.ProcessedActivity → Except String Unit))
    (s s1 : σ) (act : eth.AlchemyActivity) (e ce : String) :
    (eth.validateEthereumAddress act.toAddress = some e →
      eth.ProcessActivity p co handler s act =
        ⟨Except.error (eth.EthError.invalidToAddress e), s, [], []⟩) ∧
    (eth.validateEthereumAddress act.toAddress = none →
      eth.validateEthereumAddress act.fromAddress = some e →
      eth.ProcessActivity p co handler s act =
        ⟨Except.error (eth.EthError.invalidFromAddress e), s, [], []⟩) ∧
    (eth.validateEthereumAddress act.toAddress = none →
      eth.validateEthereumAddress act.fromAddress = none →
      eth.validateTransactionHash (eth.normalizeTxHash act.hash) = some e →
      eth.ProcessActivity p co handler s act =
        ⟨Except.error (eth.EthError.invalidTransactionHash e), s, [], []⟩) ∧
    (eth.validateEthereumAddress act.toAddress = none →
      eth.validateEthereumAddress act.fromAddress = none →
      eth.validateTransactionHash (eth.normalizeTxHash act.hash) = none →
      ops.isProcessed s (eth.dedupKey (eth.normalizeTxHash act.hash)
        act.typeTraceAddress) = (Except.ok false, s1) →
      eth.validateBlockNumber act.blockNum = some e →
      eth.ProcessActivity p (some ops) handler s act =
        ⟨Except.error (eth.EthError.invalidBlockNumber e), s1, [], []⟩) ∧
    (eth.validateEthereumAddress act.toAddress = none →
      eth.validateEthereumAddress act.fromAddress = none →
      eth.validateTransactionHash (eth.normalizeTxHash act.hash) = none →
      ops.isProcessed s (eth.dedupKey (eth.normalizeTxHash act.hash)
        act.typeTraceAddress) = (Except.error ce, s1) →
      eth.validateBlockNumber act.blockNum = some e →
      eth.ProcessActivity p (some ops) handler s act =
        ⟨Except.error (eth.EthError.invalidBlockNumber e), s1, [], []⟩) ∧
    (eth.validateEthereumAddress act.toAddress = none →
      eth.validateEthereumAddress act.fromAddress = none →
      eth.validateTransactionHash (eth.normalizeTxHash act.hash) = none →
      ops.isProcessed s (eth.dedupKey (eth.normalizeTxHash act.hash)
        act.typeTraceAddress) = (Except.ok true, s1) →
      eth.ProcessActivity p (some ops) handler s act =
        ⟨Except.ok (), s1, [], []⟩) := by
  refine ⟨?_, ?_, ?_, ?_, ?_, ?_⟩
  · intro h1
    exact eth.processActivity_invalid_to p co handler s act e h1
  · intro h1 h2
    exact eth.processActivity_invalid_from p co handler s act e h1 h2
  · intro h1 h2 h3
    exact eth.processActivity_invalid_hash p co handler s act e h1 h2 h3
  · intro h1 h2 h3 hq hb
    rw [eth.processActivity_miss p ops handler s s1 act h1 h2 h3 hq]
    exact eth.core_invalid_block p (some ops) handler s1 act _ _ e hb
  · intro h1 h2 h3 hq hb
    rw [eth.processActivity_cache_error p ops handler s s1 act ce h1 h2 h3 hq]
    exact eth.core_invalid_block p (some ops) handler s1 act _ _ e hb
  · intro h1 h2 h3 hq
    exact eth.processActivity_hit p ops handler s s1 act h1 h2 h3 hq

/-- Witness for C5 at a malformed to-address: validation error, untouched
state, no calls. -/
theorem claim_C5_witness :
    eth.ProcessActivity ⟨[], "eth-mainnet"⟩
      (some (cache.MemoryCache.ops 0)) (some (fun _ => Except.ok ()))
      (cache.MemoryCache.init 10 false)
      ⟨"0x1", "0xcccccccccccccccccccccccccccccccccccccccccccccccccccccccccccccccc",
        "0xaaaaaaaaaaaaaaaaaaaaaaaaaaaaaaaaaaaaaaaa", "xyz",
        some 1, none, "", "external", none, none⟩ =
      ⟨Except.error (eth.EthError.invalidToAddress "invalid address length"),
        cache.MemoryCache.init 10 false, [], []⟩ :=
  (claim_C5_validation_order ⟨[], "eth-mainnet"⟩
    (some (cache.MemoryCache.ops 0)) (cache.MemoryCache.ops 0)
    (some (fun _ => Except.ok ())) (cache.MemoryCache.init 10 false)
    (cache.MemoryCache.init 10 false) _
    "invalid address length" "").1 (by decide)

/-- Claim C5 counterexample: an activity with valid addresses and hash but
an empty block number, processed against a cache that already contains
its dedup key, returns success and skips — not the validation error the
claim asserts for every failing validation regardless of cache contents. -/
theorem claim_C5_counterexample :
    (eth.ProcessActivity ⟨[], "eth-mainnet"⟩
      (some (cache.MemoryCache.ops 0)) (some (fun _ => Except.ok ()))
      ⟨[("0xcccccccccccccccccccccccccccccccccccccccccccccccccccccccccccccccc", 100)],
        10, false, []⟩
      ⟨"", "0xcccccccccccccccccccccccccccccccccccccccccccccccccccccccccccccccc",
        "0xaaaaaaaaaaaaaaaaaaaaaaaaaaaaaaaaaaaaaaaa",
        "0xbbbbbbbbbbbbbbbbbbbbbbbbbbbbbbbbbbbbbbbb",
        some 1, none, "", "external", none, none⟩).result = Except.ok () ∧
    (eth.ProcessActivity ⟨[], "eth-mainnet"⟩
      (some (cache.MemoryCache.ops 0)) (some (fun _ => Except.ok ()))
      ⟨[("0xcccccccccccccccccccccccccccccccccccccccccccccccccccccccccccccccc", 100)],
        10, false, []⟩
      ⟨"", "0xcccccccccccccccccccccccccccccccccccccccccccccccccccccccccccccccc",
        "0xaaaaaaaaaaaaaaaaaaaaaaaaaaaaaaaaaaaaaaaa",
        "0xbbbbbbbbbbbbbbbbbbbbbbbbbbbbbbbbbbbbbbbb",
        some 1, none, "", "external", none, none⟩).handlerCalls = [] := by
  decide

/-- Claim C7 (amended): activities sharing a hash but carrying distinct
nonempty trace addresses `0` and `1` derive distinct dedup keys of the
form `hash_traceAddress`, while an activity without a trace address uses
the normalized lower-cased hash itself; consequently, when both
activities are otherwise processable (valid fields, nonzero amount,
succeeding handler), feeding them in sequence through a fresh live
in-process cache invokes the handler once for each. -/
theorem claim_C7_subevent_independence (p : eth.Processor)
    (act1 act2 : eth.AlchemyActivity) (maxSize : Nat) (enableLRU : Bool) (t : Int)
    (bn1 bn2 : Nat) (a1 a2 : Int) (c1 n1 c2 n2 : String)
    (h : eth.ProcessedActivity → Except String Unit)
    (hhash : act2.hash = act1.hash)
    (ht1 : act1.typeTraceAddress = some "0")
    (ht2 : act2.typeTraceAddress = some "1")
    (hv11 : eth.validateEthereumAddress act1.toAddress = none)
    (hv12 : eth.validateEthereumAddress act1.fromAddress = none)
    (hv13 : eth.validateTransactionHash (eth.normalizeTxHash act1.hash) = none)
    (hv21 : eth.validateEthereumAddress act2.toAddress = none)
    (hv22 : eth.validateEthereumAddress act2.fromAddress = none)
    (hv23 : eth.validateTransactionHash (eth.normalizeTxHash act2.hash) = none)
    (hb1 : eth.validateBlockNumber act1.blockNum = none)
    (hp1 : parseUintHex64 (trimPrefix act1.blockNum "0x") = some bn1)
    (ha1 : eth.computeACN p act1 (eth.categoryOf act1) (eth.isInternalOf act1) =
      some (a1, c1, n1))
    (hz1 : a1 ≠ 0)
    (hb2 : eth.validateBlockNumber act2.blockNum = none)
    (hp2 : parseUintHex64 (trimPrefix act2.blockNum "0x") = some bn2)
    (ha2 : eth.computeACN p act2 (eth.categoryOf act2) (eth.isInternalOf act2) =
      some (a2, c2, n2))
    (hz2 : a2 ≠ 0)
    (hmax : 1 ≤ maxSize)
    (hh : ∀ x, h x = Except.ok ()) :
    eth.dedupKey (eth.normalizeTxHash act1.hash) act1.typeTraceAddress ≠
      eth.dedupKey (eth.normalizeTxHash act2.hash) act2.typeTraceAddress ∧
    eth.dedupKey (eth.normalizeTxHash act1.hash) none =
      eth.normalizeTxHash act1.hash ∧
    (eth.ProcessActivity p (some (cache.MemoryCache.ops t)) (some h)
      (cache.MemoryCache.init maxSize enableLRU) act1).handlerCalls =
      [eth.paOf act1 (eth.normalizeTxHash act1.hash) bn1 a1 c1 n1] ∧
    (eth.ProcessActivity p (some (cache.MemoryCache.ops t)) (some h)
      (eth.ProcessActivity p (some (cache.MemoryCache.ops t)) (some h)
        (cache.MemoryCache.init maxSize enableLRU) act1).cacheState
      act2).handlerCalls =
      [eth.paOf act2 (eth.normalizeTxHash act2.hash) bn2 a2 c2 n2] := by
  have hud : eth.dedupKey (eth.normalizeTxHash act1.hash) act1.typeTraceAddress ≠
      eth.dedupKey (eth.normalizeTxHash act2.hash) act2.typeTraceAddress := by
    rw [ht1, ht2, hhash]
    exact eth.dedupKey_trace_ne _ "0" "1" (by decide) (by decide) (by decide)
  have hip1 := cache.isProcessed_of_lookup_none t
    (cache.MemoryCache.init maxSize enableLRU)
    (eth.dedupKey (eth.normalizeTxHash act1.hash) act1.typeTraceAddress) rfl
  have hq1 : (cache.MemoryCache.ops t).isProcessed
      (cache.MemoryCache.init maxSize enableLRU)
      (eth.dedupKey (eth.normalizeTxHash act1.hash) act1.typeTraceAddress) =
      (Except.ok false, cache.MemoryCache.init maxSize enableLRU) := by
    simp [cache.MemoryCache.ops, hip1]
  have hrun1 : eth.ProcessActivity p (some (cache.MemoryCache.ops t)) (some h)
      (cache.MemoryCache.init maxSize enableLRU) act1 =
      ⟨Except.ok (),
        ((cache.MemoryCache.ops t).markProcessed
          (cache.MemoryCache.init maxSize enableLRU)
          (eth.dedupKey (eth.normalizeTxHash act1.hash) act1.typeTraceAddress)
          ttl24h).2,
        [eth.paOf act1 (eth.normalizeTxHash act1.hash) bn1 a1 c1 n1],
        [(eth.dedupKey (eth.normalizeTxHash act1.hash) act1.typeTraceAddress,
          ttl24h)]⟩ := by
    rw [eth.processActivity_miss p _ (some h) _ _ act1 hv11 hv12 hv13 hq1]
    exact eth.core_handler_ok p _ h _ act1 _ _ bn1 a1 c1 n1 hb1 hp1 ha1 hz1 (hh _)
  have hcs : (eth.ProcessActivity p (some (cache.MemoryCache.ops t)) (some h)
      (cache.MemoryCache.init maxSize enableLRU) act1).cacheState =
      cache.MemoryCache.MarkProcessed t (cache.MemoryCache.init maxSize enableLRU)
        (eth.dedupKey (eth.normalizeTxHash act1.hash) act1.typeTraceAddress)
        ttl24h := by
    rw [hrun1]
    rfl
  refine ⟨hud, rfl, by rw [hrun1], ?_⟩
  · have hnotfull : ¬ ((cache.MemoryCache.init maxSize enableLRU).entries.length ≥
        (cache.MemoryCache.init maxSize enableLRU).maxSize) := by
      simp only [cache.MemoryCache.init, List.length_nil]
      omega
    have hent : (cache.MemoryCache.MarkProcessed t
        (cache.MemoryCache.init maxSize enableLRU)
        (eth.dedupKey (eth.normalizeTxHash act1.hash) act1.typeTraceAddress)
        ttl24h).entries =
        [(eth.dedupKey (eth.normalizeTxHash act1.hash) act1.typeTraceAddress,
          t + ttl24h)] := by
      rw [cache.markProcessed_entries, cache.evict_of_not_full t _ hnotfull]
      rfl
    have hl2 : cache.lookupEntry
        (eth.dedupKey (eth.normalizeTxHash act2.hash) act2.typeTraceAddress)
        (cache.MemoryCache.MarkProcessed t (cache.MemoryCache.init maxSize enableLRU)
          (eth.dedupKey (eth.normalizeTxHash act1.hash) act1.typeTraceAddress)
          ttl24h).entries = none := by
      rw [hent]
      simp [cache.lookupEntry, hud]
    have hip2 := cache.isProcessed_of_lookup_none t
      (cache.MemoryCache.MarkProcessed t (cache.MemoryCache.init maxSize enableLRU)
        (eth.dedupKey (eth.normalizeTxHash act1.hash) act1.typeTraceAddress) ttl24h)
      (eth.dedupKey (eth.normalizeTxHash act2.hash) act2.typeTraceAddress) hl2
    have hq2 : (cache.MemoryCache.ops t).isProcessed
        (cache.MemoryCache.MarkProcessed t (cache.MemoryCache.init maxSize enableLRU)
          (eth.dedupKey (eth.normalizeTxHash act1.hash) act1.typeTraceAddress)
          ttl24h)
        (eth.dedupKey (eth.normalizeTxHash act2.hash) act2.typeTraceAddress) =
        (Except.ok false,
          cache.MemoryCache.MarkProcessed t (cache.MemoryCache.init maxSize enableLRU)
            (eth.dedupKey (eth.normalizeTxHash act1.hash) act1.typeTraceAddress)
            ttl24h) := by
      simp [cache.MemoryCache.ops, hip2]
    rw [hcs, eth.processActivity_miss p _ (some h) _ _ act2 hv21 hv22 hv23 hq2]
    rw [eth.core_handler_ok p _ h _ act2 _ _ bn2 a2 c2 n2 hb2 hp2 ha2 hz2 (hh _)]

/-- Witness for C7 at two concrete one-ether activities sharing a hash
with traces `0` and `1`: distinct keys, both handled. -/
theorem claim_C7_witness :
    eth.dedupKey (eth.normalizeTxHash
      "0xcccccccccccccccccccccccccccccccccccccccccccccccccccccccccccccccc")
      (some "0") ≠
    eth.dedupKey (eth.normalizeTxHash
      "0xcccccccccccccccccccccccccccccccccccccccccccccccccccccccccccccccc")
      (some "1") ∧
    eth.dedupKey (eth.normalizeTxHash
      "0xcccccccccccccccccccccccccccccccccccccccccccccccccccccccccccccccc")
      none =
      eth.normalizeTxHash
        "0xcccccccccccccccccccccccccccccccccccccccccccccccccccccccccccccccc" ∧
    (eth.ProcessActivity ⟨[], "eth-mainnet"⟩ (some (cache.MemoryCache.ops 0))
      (some (fun _ => Except.ok ())) (cache.MemoryCache.init 10 false)
      ⟨"0x1", "0xcccccccccccccccccccccccccccccccccccccccccccccccccccccccccccccccc",
        "0xaaaaaaaaaaaaaaaaaaaaaaaaaaaaaaaaaaaaaaaa",
        "0xbbbbbbbbbbbbbbbbbbbbbbbbbbbbbbbbbbbbbbbb",
        some 1, none, "", "external", none, some "0"⟩).handlerCalls =
      [eth.paOf
        ⟨"0x1", "0xcccccccccccccccccccccccccccccccccccccccccccccccccccccccccccccccc",
          "0xaaaaaaaaaaaaaaaaaaaaaaaaaaaaaaaaaaaaaaaa",
          "0xbbbbbbbbbbbbbbbbbbbbbbbbbbbbbbbbbbbbbbbb",
          some 1, none, "", "external", none, some "0"⟩
        (eth.normalizeTxHash
          "0xcccccccccccccccccccccccccccccccccccccccccccccccccccccccccccccccc")
        1 (10 ^ 18) "ETH" "MAINNET"] ∧
    (eth.ProcessActivity ⟨[], "eth-mainnet"⟩ (some (cache.MemoryCache.ops 0))
      (some (fun _ => Except.ok ()))
      (eth.ProcessActivity ⟨[], "eth-mainnet"⟩ (some (cache.MemoryCache.ops 0))
        (some (fun _ => Except.ok ())) (cache.MemoryCache.init 10 false)
        ⟨"0x1", "0xcccccccccccccccccccccccccccccccccccccccccccccccccccccccccccccccc",
          "0xaaaaaaaaaaaaaaaaaaaaaaaaaaaaaaaaaaaaaaaa",
          "0xbbbbbbbbbbbbbbbbbbbbbbbbbbbbbbbbbbbbbbbb",
          some 1, none, "", "external", none, some "0"⟩).cacheState
      ⟨"0x1", "0xcccccccccccccccccccccccccccccccccccccccccccccccccccccccccccccccc",
        "0xaaaaaaaaaaaaaaaaaaaaaaaaaaaaaaaaaaaaaaaa",
        "0xbbbbbbbbbbbbbbbbbbbbbbbbbbbbbbbbbbbbbbbb",
        some 1, none, "", "external", none, some "1"⟩).handlerCalls =
      [eth.paOf
        ⟨"0x1", "0xcccccccccccccccccccccccccccccccccccccccccccccccccccccccccccccccc",
          "0xaaaaaaaaaaaaaaaaaaaaaaaaaaaaaaaaaaaaaaaa",
          "0xbbbbbbbbbbbbbbbbbbbbbbbbbbbbbbbbbbbbbbbb",
          some 1, none, "", "external", none, some "1"⟩
        (eth.normalizeTxHash
          "0xcccccccccccccccccccccccccccccccccccccccccccccccccccccccccccccccc")
        1 (10 ^ 18) "ETH" "MAINNET"] :=
  claim_C7_subevent_independence ⟨[], "eth-mainnet"⟩
    ⟨"0x1", "0xcccccccccccccccccccccccccccccccccccccccccccccccccccccccccccccccc",
      "0xaaaaaaaaaaaaaaaaaaaaaaaaaaaaaaaaaaaaaaaa",
      "0xbbbbbbbbbbbbbbbbbbbbbbbbbbbbbbbbbbbbbbbb",
      some 1, none, "", "external", none, some "0"⟩
    ⟨"0x1", "0xcccccccccccccccccccccccccccccccccccccccccccccccccccccccccccccccc",
      "0xaaaaaaaaaaaaaaaaaaaaaaaaaaaaaaaaaaaaaaaa",
      "0xbbbbbbbbbbbbbbbbbbbbbbbbbbbbbbbbbbbbbbbb",
      some 1, none, "", "external", none, some "1"⟩
    10 false 0 1 1 (10 ^ 18) (10 ^ 18) "ETH" "MAINNET" "ETH" "MAINNET"
    (fun _ => Except.ok ()) rfl rfl rfl
    (by decide) (by decide) (by decide) (by decide) (by decide) (by decide)
    (by decide) (by decide) (by decide) (by decide)
    (by decide) (by decide) (by decide) (by decide)
    (by decide) (fun _ => rfl)

/-- Claim C7 counterexample: two zero-value activities sharing a hash
with traces `0` and `1` derive distinct dedup keys, yet with a live
fresh cache neither invokes the handler — the claim asserts both do. -/
theorem claim_C7_counterexample :
    eth.dedupKey (eth.normalizeTxHash
      "0xcccccccccccccccccccccccccccccccccccccccccccccccccccccccccccccccc")
      (some "0") ≠
    eth.dedupKey (eth.normalizeTxHash
      "0xcccccccccccccccccccccccccccccccccccccccccccccccccccccccccccccccc")
      (some "1") ∧
    ((eth.ProcessActivity ⟨[], "eth-mainnet"⟩ (some (cache.MemoryCache.ops 0))
        (some (fun _ => Except.ok ())) (cache.MemoryCache.init 10 false)
        ⟨"0x1", "0xcccccccccccccccccccccccccccccccccccccccccccccccccccccccccccccccc",
          "0xaaaaaaaaaaaaaaaaaaaaaaaaaaaaaaaaaaaaaaaa",
          "0xbbbbbbbbbbbbbbbbbbbbbbbbbbbbbbbbbbbbbbbb",
          some 0, none, "", "external", none, some "0"⟩).handlerCalls ++
      (eth.ProcessActivity ⟨[], "eth-mainnet"⟩ (some (cache.MemoryCache.ops 0))
        (some (fun _ => Except.ok ()))
        (eth.ProcessActivity ⟨[], "eth-mainnet"⟩ (some (cache.MemoryCache.ops 0))
          (some (fun _ => Except.ok ())) (cache.MemoryCache.init 10 false)
          ⟨"0x1", "0xcccccccccccccccccccccccccccccccccccccccccccccccccccccccccccccccc",
            "0xaaaaaaaaaaaaaaaaaaaaaaaaaaaaaaaaaaaaaaaa",
            "0xbbbbbbbbbbbbbbbbbbbbbbbbbbbbbbbbbbbbbbbb",
            some 0, none, "", "external", none, some "0"⟩).cacheState
        ⟨"0x1", "0xcccccccccccccccccccccccccccccccccccccccccccccccccccccccccccccccc",
          "0xaaaaaaaaaaaaaaaaaaaaaaaaaaaaaaaaaaaaaaaa",
          "0xbbbbbbbbbbbbbbbbbbbbbbbbbbbbbbbbbbbbbbbb",
          some 0, none, "", "external", none, some "1"⟩).handlerCalls).length = 0 := by
  constructor
  · decide
  · decide

/-- Claim C2: in both normalizers a handler error is returned to the
caller as a handler error, with no `MarkProcessed` call and the cache
state left exactly as the consult left it; with a succeeding handler the
single mark call uses the fixed 24-hour TTL. -/
theorem claim_C2_handler_gates_mark {σ : Type} (p : eth.Processor)
    (ps : solana.Processor) (ops : CacheOps σ) (s s1 s2 : σ)
    (act : eth.AlchemyActivity) (bn : Nat) (amount : Int)
    (currency network : String) (e : String)
    (hErr hOk : eth.ProcessedActivity → Except String Unit)
    (sErr sOk : solana.ProcessedTransaction → Except String Unit)
    (tx : solana.AlchemySolanaTransaction) (slot : Nat) (now : Int)
    (td : solana.SolTxDetail) (tds : List solana.SolTxDetail)
    (meta : solana.SolMeta) (ms : List solana.SolMeta)
    (msg : solana.SolMessage) (msgs : List solana.SolMessage)
    (hv1 : eth.validateEthereumAddress act.toAddress = none)
    (hv2 : eth.validateEthereumAddress act.fromAddress = none)
    (hv3 : eth.validateTransactionHash (eth.normalizeTxHash act.hash) = none)
    (hb : eth.validateBlockNumber act.blockNum = none)
    (hp : parseUintHex64 (trimPrefix act.blockNum "0x") = some bn)
    (ha : eth.computeACN p act (eth.categoryOf act) (eth.isInternalOf act) =
      some (amount, currency, network))
    (hz : amount ≠ 0)
    (hq : ops.isProcessed s (eth.dedupKey (eth.normalizeTxHash act.hash)
      act.typeTraceAddress) = (Except.ok false, s1))
    (hhe : ∀ x, hErr x = Except.error e) (hho : ∀ x, hOk x = Except.ok ())
    (htx : tx.transaction = td :: tds) (hmeta : tx.meta = meta :: ms)
    (hmsg : td.message = msg :: msgs) (hkeys : msg.accountKeys ≠ [])
    (hq2 : ops.isProcessed s tx.signature = (Except.ok false, s2))
    (hne : solana.extractNativeTransfers msg.accountKeys meta ≠ [] ∨
      solana.extractTokenTransfers ps msg.accountKeys msg meta ≠ [])
    (hse : ∀ x, sErr x = Except.error e) (hso : ∀ x, sOk x = Except.ok ()) :
    eth.ProcessActivity p (some ops) (some hErr) s act =
      ⟨Except.error (eth.EthError.handlerError e), s1,
        [eth.paOf act (eth.normalizeTxHash act.hash) bn amount currency network],
        []⟩ ∧
    eth.ProcessActivity p (some ops) (some hOk) s act =
      ⟨Except.ok (),
        (ops.markProcessed s1 (eth.dedupKey (eth.normalizeTxHash act.hash)
          act.typeTraceAddress) ttl24h).2,
        [eth.paOf act (eth.normalizeTxHash act.hash) bn amount currency network],
        [(eth.dedupKey (eth.normalizeTxHash act.hash) act.typeTraceAddress,
          ttl24h)]⟩ ∧
    solana.ProcessTransaction ps (some ops) (some sErr) s tx slot now =
      ⟨Except.error (solana.SolError.handlerError e), s2,
        [solana.ptxOf ps tx.signature slot now msg.accountKeys msg meta], []⟩ ∧
    solana.ProcessTransaction ps (some ops) (some sOk) s tx slot now =
      ⟨Except.ok (), (ops.markProcessed s2 tx.signature ttl24h).2,
        [solana.ptxOf ps tx.signature slot now msg.accountKeys msg meta],
        [(tx.signature, ttl24h)]⟩ := by
  refine ⟨?_, ?_, ?_, ?_⟩
  · rw [eth.processActivity_miss p ops (some hErr) s s1 act hv1 hv2 hv3 hq]
    exact eth.core_handler_error p (some ops) hErr s1 act _ _ bn amount currency
      network e hb hp ha hz (hhe _)
  · rw [eth.processActivity_miss p ops (some hOk) s s1 act hv1 hv2 hv3 hq]
    exact eth.core_handler_ok p ops hOk s1 act _ _ bn amount currency network
      hb hp ha hz (hho _)
  · rw [solana.processTransaction_miss ps ops (some sErr) s s2 tx slot now
      td tds meta ms msg msgs htx hmeta hmsg hkeys hq2]
    exact solana.solCore_handler_error ps (some ops) sErr s2 tx.signature slot now
      msg.accountKeys msg meta e hne (hse _)
  · rw [solana.processTransaction_miss ps ops (some sOk) s s2 tx slot now
      td tds meta ms msg msgs htx hmeta hmsg hkeys hq2]
    exact solana.solCore_handler_ok ps ops sOk s2 tx.signature slot now
      msg.accountKeys msg meta hne (hso _)

/-- Witness for C2: a concrete external activity with a failing handler
yields the propagated handler error, the consult-time cache state and no
mark call. -/
theorem claim_C2_witness :
    eth.ProcessActivity ⟨[], "eth-mainnet"⟩ (some (cache.MemoryCache.ops 0))
      (some (fun _ => Except.error "boom")) (cache.MemoryCache.init 10 false)
      ⟨"0x1", "0xcccccccccccccccccccccccccccccccccccccccccccccccccccccccccccccccc",
        "0xaaaaaaaaaaaaaaaaaaaaaaaaaaaaaaaaaaaaaaaa",
        "0xbbbbbbbbbbbbbbbbbbbbbbbbbbbbbbbbbbbbbbbb",
        some 1, none, "", "external", none, none⟩ =
      ⟨Except.error (eth.EthError.handlerError "boom"),
        cache.MemoryCache.init 10 false,
        [eth.paOf
          ⟨"0x1", "0xcccccccccccccccccccccccccccccccccccccccccccccccccccccccccccccccc",
            "0xaaaaaaaaaaaaaaaaaaaaaaaaaaaaaaaaaaaaaaaa",
            "0xbbbbbbbbbbbbbbbbbbbbbbbbbbbbbbbbbbbbbbbb",
            some 1, none, "", "external", none, none⟩
          (eth.normalizeTxHash
            "0xcccccccccccccccccccccccccccccccccccccccccccccccccccccccccccccccc")
          1 (10 ^ 18) "ETH" "MAINNET"], []⟩ :=
  (claim_C2_handler_gates_mark ⟨[], "eth-mainnet"⟩ ⟨[], "solana-mainnet"⟩
    (cache.MemoryCache.ops 0) (cache.MemoryCache.init 10 false)
    (cache.MemoryCache.init 10 false) (cache.MemoryCache.init 10 false)
    _ 1 (10 ^ 18) "ETH" "MAINNET" "boom"
    (fun _ => Except.error "boom") (fun _ => Except.ok ())
    (fun _ => Except.error "boom") (fun _ => Except.ok ())
    ⟨"sig1", [⟨[], [⟨[], ["a", "b"]⟩]⟩], [⟨0, [10, 0], [0, 5], [], false, []⟩]⟩
    7 0 ⟨[], [⟨[], ["a", "b"]⟩]⟩ [] ⟨0, [10, 0], [0, 5], [], false, []⟩ []
    ⟨[], ["a", "b"]⟩ []
    (by decide) (by decide) (by decide) (by decide) (by decide) (by decide)
    (by decide) (by decide) (fun _ => rfl) (fun _ => rfl) rfl rfl rfl
    (by decide) (by decide) (by decide) (fun _ => rfl) (fun _ => rfl)).1

/-- Claim C4: cache failures are fail-open in both normalizers — a failed
consult makes the run identical to a not-processed consult (for every
event), and a failed mark after a successful handler still returns
success. -/
theorem claim_C4_fail_open {σ : Type} (p : eth.Processor)
    (ps : solana.Processor) (ops1 ops2 : CacheOps σ) (s s1 s2 : σ)
    (act : eth.AlchemyActivity) (bn : Nat) (amount : Int)
    (currency network : String) (ce me : String)
    (handler : Option (eth.ProcessedActivity → Except String Unit))
    (shandler : Option (solana.ProcessedTransaction → Except String Unit))
    (hOk : eth.ProcessedActivity → Except String Unit)
    (sOk : solana.ProcessedTransaction → Except String Unit)
    (tx : solana.AlchemySolanaTransaction) (slot : Nat) (now : Int)
    (td : solana.SolTxDetail) (tds : List solana.SolTxDetail)
    (meta : solana.SolMeta) (ms : List solana.SolMeta)
    (msg : solana.SolMessage) (msgs : List solana.SolMessage)
    (hm : ops1.markProcessed = ops2.markProcessed)
    (hv1 : eth.validateEthereumAddress act.toAddress = none)
    (hv2 : eth.validateEthereumAddress act.fromAddress = none)
    (hv3 : eth.validateTransactionHash (eth.normalizeTxHash act.hash) = none)
    (hb : eth.validateBlockNumber act.blockNum = none)
    (hp : parseUintHex64 (trimPrefix act.blockNum "0x") = some bn)
    (ha : eth.computeACN p act (eth.categoryOf act) (eth.isInternalOf act) =
      some (amount, currency, network))
    (hz : amount ≠ 0)
    (hho : ∀ x, hOk x = Except.ok ())
    (htx : tx.transaction = td :: tds) (hmeta : tx.meta = meta :: ms)
    (hmsg : td.message = msg :: msgs) (hkeys : msg.accountKeys ≠ [])
    (hne : solana.extractNativeTransfers msg.accountKeys meta ≠ [] ∨
      solana.extractTokenTransfers ps msg.accountKeys msg meta ≠ [])
    (hso : ∀ x, sOk x = Except.ok ()) :
    (ops1.isProcessed s (eth.dedupKey (eth.normalizeTxHash act.hash)
        act.typeTraceAddress) = (Except.error ce, s1) →
      ops2.isProcessed s (eth.dedupKey (eth.normalizeTxHash act.hash)
        act.typeTraceAddress) = (Except.ok false, s1) →
      eth.ProcessActivity p (some ops1) handler s act =
        eth.ProcessActivity p (some ops2) handler s act) ∧
    (ops1.isProcessed s (eth.dedupKey (eth.normalizeTxHash act.hash)
        act.typeTraceAddress) = (Except.error ce, s1) →
      ops1.markProcessed s1 (eth.dedupKey (eth.normalizeTxHash act.hash)
        act.typeTraceAddress) ttl24h = (Except.error me, s2) →
      eth.ProcessActivity p (some ops1) (some hOk) s act =
        ⟨Except.ok (), s2,
          [eth.paOf act (eth.normalizeTxHash act.hash) bn amount currency network],
          [(eth.dedupKey (eth.normalizeTxHash act.hash) act.typeTraceAddress,
            ttl24h)]⟩) ∧
    (ops1.isProcessed s tx.signature = (Except.error ce, s1) →
      ops2.isProcessed s tx.signature = (Except.ok false, s1) →
      solana.ProcessTransaction ps (some ops1) shandler s tx slot now =
        solana.ProcessTransaction ps (some ops2) shandler s tx slot now) ∧
    (ops1.isProcessed s tx.signature = (Except.error ce, s1) →
      ops1.markProcessed s1 tx.signature ttl24h = (Except.error me, s2) →
      solana.ProcessTransaction ps (some ops1) (some sOk) s tx slot now =
        ⟨Except.ok (), s2,
          [solana.ptxOf ps tx.signature slot now msg.accountKeys msg meta],
          [(tx.signature, ttl24h)]⟩) := by
  refine ⟨?_, ?_, ?_, ?_⟩
  · intro hq1 hq2
    rw [eth.processActivity_cache_error p ops1 handler s s1 act ce hv1 hv2 hv3 hq1,
      eth.processActivity_miss p ops2 handler s s1 act hv1 hv2 hv3 hq2]
    exact eth.core_congr_mark p ops1 ops2 handler s1 act _ _ hm
  · intro hq1 hmark
    rw [eth.processActivity_cache_error p ops1 (some hOk) s s1 act ce hv1 hv2 hv3 hq1,
      eth.core_handler_ok p ops1 hOk s1 act _ _ bn amount currency network
        hb hp ha hz (hho _), hmark]
  · intro hq1 hq2
    rw [solana.processTransaction_cache_error ps ops1 shandler s s1 tx slot now
        td tds meta ms msg msgs ce htx hmeta hmsg hkeys hq1,
      solana.processTransaction_miss ps ops2 shandler s s1 tx slot now
        td tds meta ms msg msgs htx hmeta hmsg hkeys hq2]
    exact solana.solCore_congr_mark ps ops1 ops2 shandler s1 tx.signature slot now
      msg.accountKeys msg meta hm
  · intro hq1 hmark
    rw [solana.processTransaction_cache_error ps ops1 (some sOk) s s1 tx slot now
        td tds meta ms msg msgs ce htx hmeta hmsg hkeys hq1,
      solana.solCore_handler_ok ps ops1 sOk s1 tx.signature slot now
        msg.accountKeys msg meta hne (hso _), hmark]

/-- Witness for C4: against a backend whose both operations fail, a
concrete external activity is still processed: handler invoked, mark
attempted, success returned. -/
theorem claim_C4_witness :
    eth.ProcessActivity ⟨[], "eth-mainnet"⟩ (some failingCacheOps)
      (some (fun _ => Except.ok ())) ()
      ⟨"0x1", "0xcccccccccccccccccccccccccccccccccccccccccccccccccccccccccccccccc",
        "0xaaaaaaaaaaaaaaaaaaaaaaaaaaaaaaaaaaaaaaaa",
        "0xbbbbbbbbbbbbbbbbbbbbbbbbbbbbbbbbbbbbbbbb",
        some 1, none, "", "external", none, none⟩ =
      ⟨Except.ok (), (),
        [eth.paOf
          ⟨"0x1", "0xcccccccccccccccccccccccccccccccccccccccccccccccccccccccccccccccc",
            "0xaaaaaaaaaaaaaaaaaaaaaaaaaaaaaaaaaaaaaaaa",
            "0xbbbbbbbbbbbbbbbbbbbbbbbbbbbbbbbbbbbbbbbb",
            some 1, none, "", "external", none, none⟩
          (eth.normalizeTxHash
            "0xcccccccccccccccccccccccccccccccccccccccccccccccccccccccccccccccc")
          1 (10 ^ 18) "ETH" "MAINNET"],
        [(eth.dedupKey (eth.normalizeTxHash
            "0xcccccccccccccccccccccccccccccccccccccccccccccccccccccccccccccccc")
          none, ttl24h)]⟩ :=
  (claim_C4_fail_open ⟨[], "eth-mainnet"⟩ ⟨[], "solana-mainnet"⟩
    failingCacheOps ⟨fun s _ => (Except.ok false, s), failingCacheOps.markProcessed⟩
    () () ()
    _ 1 (10 ^ 18) "ETH" "MAINNET" "cache down" "cache down"
    (some (fun _ => Except.ok ())) (some (fun _ => Except.ok ()))
    (fun _ => Except.ok ()) (fun _ => Except.ok ())
    ⟨"sig1", [⟨[], [⟨[], ["a", "b"]⟩]⟩], [⟨0, [10, 0], [0, 5], [], false, []⟩]⟩
    7 0 ⟨[], [⟨[], ["a", "b"]⟩]⟩ [] ⟨0, [10, 0], [0, 5], [], false, []⟩ []
    ⟨[], ["a", "b"]⟩ []
    rfl (by decide) (by decide) (by decide) (by decide) (by decide) (by decide)
    (by decide) (fun _ => rfl) rfl rfl rfl (by decide) (by decide)
    (fun _ => rfl)).2.1 rfl rfl

/-- Claim C6 counterexample: with pre-balances `[3, 0]` and post-balances
`[0, 5]`, index 1 is credited 5 while index 0 is debited 3; the code
emits amount 5 (the credited delta), not the smaller of the two deltas
`min 5 3 = 3` stated by the claim. -/
theorem claim_C6_counterexample :
    solana.extractNativeTransfers ["a", "b"] ⟨0, [3, 0], [0, 5], [], false, []⟩ =
      [⟨"a", "b", 5⟩] ∧ (5 : Int) ≠ min 5 3 := by
  decide

end AlchemyWebhook
